import Mathlib

/-!
Verification of the bingo repository (a Telegram multiplayer bingo demo)
against its natural-language specification.

Embedding conventions:
- JavaScript numbers used as money amounts are modeled as rationals.
- A draw token such as the string B15 is modeled as a pair of a column
  letter and a number; the five column letters are pairwise distinct,
  so string formatting and the pair representation are in bijection on
  valid tokens.
- Math.random based choices are explicit parameters: a JS expression
  Math.floor(Math.random() * n) is modeled as (r % n) for a supplied
  natural number r.
- A JS array is modeled as a Lean list; reads a[i] that are always in
  bounds in the source are modeled with getD.
- Fallible paths (uncaught JS exceptions) are modeled with Except.
-/

namespace Bingo

/-- The five bingo column letters, B I N G O. -/
inductive Letter where
  | B | I | N | G | O
deriving DecidableEq, Repr

/-- A draw token: column letter plus called number (the string B15 is ((Letter.B, 15)). -/
abbrev Draw := Letter × Nat

/-- The list of column letters in source order. -/
def letters : List Letter := [Letter.B, Letter.I, Letter.N, Letter.G, Letter.O]

/-- Lower bound of the number range of a column. -/
def colMin : Letter → Nat
  | Letter.B => 1
  | Letter.I => 16
  | Letter.N => 31
  | Letter.G => 46
  | Letter.O => 61

/-- Upper bound of the number range of a column. -/
def colMax (L : Letter) : Nat := colMin L + 14

/-- A draw token is valid when its number lies in the range of its letter
(the ranges used throughout the source: B 1-15, I 16-30, N 31-45, G 46-60, O 61-75). -/
def validDraw (d : Draw) : Prop := colMin d.1 ≤ d.2 ∧ d.2 ≤ colMax d.1

instance (d : Draw) : Decidable (validDraw d) := by
  unfold validDraw; infer_instance

/-- A card cell: either a number or the FREE marker. -/
inductive Cell where
  | num (n : Nat)
  | free
deriving DecidableEq, Repr

/-- A bingo card: the JS object with five arrays keyed B, I, N, G, O
(src/lib/bingo.js generateBingoCard). -/
structure Card where
  B : List Cell
  I : List Cell
  N : List Cell
  G : List Cell
  O : List Cell
deriving DecidableEq, Repr

/-- Column access, card[colLetter] in the source. -/
def Card.col (c : Card) : Letter → List Cell
  | Letter.B => c.B
  | Letter.I => c.I
  | Letter.N => c.N
  | Letter.G => c.G
  | Letter.O => c.O

/-- generateRange(start, end) in src/lib/bingo.js: the numbers start..end inclusive. -/
def generateRange (start e : Nat) : List Nat :=
  (List.range (e + 1 - start)).map (fun i => start + i)

/-- One iteration of the Fisher-Yates swap in shuffleArray:
[shuffled[i], shuffled[j]] = [shuffled[j], shuffled[i]]. -/
def listSwap (l : List Nat) (i j : Nat) : List Nat :=
  (l.set i (l.getD j 0)).set j (l.getD i 0)

/-- The shuffleArray loop of src/lib/bingo.js, running the swap at indices
i, i-1, ..., 1; rand i models Math.floor(Math.random() * (i + 1)) via rand i % (i + 1). -/
def shuffleAux (rand : Nat → Nat) : List Nat → Nat → List Nat
  | l, 0 => l
  | l, Nat.succ i => shuffleAux rand (listSwap l (i + 1) (rand (i + 1) % (i + 2))) i

/-- shuffleArray(array) of src/lib/bingo.js: Fisher-Yates from index length-1 down to 1,
with the per-index random draw supplied by rand. -/
def shuffleArray (l : List Nat) (rand : Nat → Nat) : List Nat :=
  shuffleAux rand l (l.length - 1)

/-- generateBingoCard() of src/lib/bingo.js: each column is the first 5 values of a
shuffle of its range; then card.N[2] is overwritten with the FREE marker.
The randomness of the five shuffleArray calls is supplied per column by rand. -/
def generateBingoCard (rand : Letter → Nat → Nat) : Card where
  B := ((shuffleArray (generateRange 1 15) (rand Letter.B)).take 5).map Cell.num
  I := ((shuffleArray (generateRange 16 30) (rand Letter.I)).take 5).map Cell.num
  N := ((((shuffleArray (generateRange 31 45) (rand Letter.N)).take 5).map Cell.num).set 2 Cell.free)
  G := ((shuffleArray (generateRange 46 60) (rand Letter.G)).take 5).map Cell.num
  O := ((shuffleArray (generateRange 61 75) (rand Letter.O)).take 5).map Cell.num

/-- A flattened card cell as built at the top of checkCardForWin:
value, column letter, row index, and the precomputed isFree flag
(isFree: value === FREE). -/
structure CellInfo where
  value : Cell
  col : Letter
  row : Nat
deriving DecidableEq, Repr

/-- The isFree field pushed by checkCardForWin. -/
def CellInfo.isFree (c : CellInfo) : Bool := c.value = Cell.free

/-- Default used for the always-in-bounds list reads of checkCardForWin. -/
def dfltCell : CellInfo := ⟨Cell.num 0, Letter.B, 0⟩

/-- The flat cells array built by checkCardForWin: for each column letter in
order B I N G O, the cells of that column with their row index. -/
def cardCells (card : Card) : List CellInfo :=
  letters.flatMap (fun L => ((card.col L).enum).map (fun p => ⟨p.2, L, p.1⟩))

/-- The single uncaught exception of the win evaluator: inside checkLineWin the
identifier markedNumbers is referenced but is not in scope (it is a parameter of
checkCardForWin and of isCellMarked only), so evaluating it throws a
ReferenceError in JS module (strict) code. -/
inductive JsError where
  | refErrorMarkedNumbers
deriving DecidableEq, Repr

/-- isCellMarked(cell, markedNumbers) of src/lib/bingo.js: a FREE cell is marked;
otherwise the key column-letter + value is looked up in markedNumbers.
(With the scoping bug in checkLineWin this function is never actually reached.) -/
def isCellMarked (cell : CellInfo) (markedNumbers : List Draw) : Bool :=
  if cell.isFree then true
  else
    match cell.value with
    | Cell.num n => markedNumbers.contains (cell.col, n)
    | Cell.free => markedNumbers.contains (cell.col, 0)

/-- The loop of checkLineWin over the iteration counters is: for each i the cell
at startIndex + (i == 0 ? 0 : nextIndex(i-1)) is inspected; a FREE cell passes,
and for any non-FREE cell the source evaluates
isCellMarked(cell, markedNumbers) whose argument expression markedNumbers is an
unresolved identifier, so the call throws ReferenceError before isCellMarked runs. -/
def checkLineWinGo (cells : List CellInfo) (startIndex : Nat) (next : Nat → Nat) :
    List Nat → Except JsError Bool
  | [] => Except.ok true
  | i :: rest =>
    if (cells.getD (startIndex + (if i = 0 then 0 else next (i - 1))) dfltCell).isFree
    then checkLineWinGo cells startIndex next rest
    else Except.error JsError.refErrorMarkedNumbers

/-- checkLineWin(cells, startIndex, nextIndex, length) of src/lib/bingo.js. -/
def checkLineWin (cells : List CellInfo) (startIndex : Nat) (next : Nat → Nat)
    (length : Nat) : Except JsError Bool :=
  checkLineWinGo cells startIndex next (List.range length)

/-- Sequencing of the line checks of checkCardForWin: stop at the first check that
returns true or throws, otherwise keep going. -/
def exceptOr (a b : Except JsError Bool) : Except JsError Bool :=
  match a with
  | Except.error e => Except.error e
  | Except.ok true => Except.ok true
  | Except.ok false => b

/-- The twelve checkLineWin calls of checkCardForWin in source order:
5 row checks (startIndex row*5, step i+1), 5 column checks (startIndex col,
step i+5), main diagonal (start 0, step i+6), anti diagonal (start 4, step i+4). -/
def lineChecks (cells : List CellInfo) : List (Except JsError Bool) :=
  ((List.range 5).map (fun row => checkLineWin cells (row * 5) (fun i => i + 1) 5))
    ++ ((List.range 5).map (fun col => checkLineWin cells col (fun i => i + 5) 5))
    ++ [checkLineWin cells 0 (fun i => i + 6) 5, checkLineWin cells 4 (fun i => i + 4) 5]

/-- checkCardForWin(card, markedNumbers) of src/lib/bingo.js: flattens the card and
runs the line checks in order, returning true at the first winning line. -/
def checkCardForWin (card : Card) (markedNumbers : List Draw) : Except JsError Bool :=
  (lineChecks (cardCells card)).foldr exceptOr (Except.ok false)

/-- calculatePrizePerWinner(totalPot, winnerCount) of src/lib/bingo.js:
0 when there is no winner, otherwise 80 percent of the pot split evenly
(the JS literal 0.8 is the rational 4/5). -/
def calculatePrizePerWinner (totalPot : ℚ) (winnerCount : Nat) : ℚ :=
  if winnerCount = 0 then 0 else totalPot * (4 / 5) / winnerCount

/-- The columns table at the top of generateRandomDraw. -/
def columnsSpec : List (Letter × Nat × Nat) :=
  [(Letter.B, 1, 15), (Letter.I, 16, 30), (Letter.N, 31, 45),
   (Letter.G, 46, 60), (Letter.O, 61, 75)]

/-- usedNumbers.filter(num => num.startsWith(col.letter)).length in
generateRandomDraw. -/
def usedInColumn (usedNumbers : List Draw) (L : Letter) : Nat :=
  (usedNumbers.filter (fun d => d.1 = L)).length

/-- The availableColumns filter of generateRandomDraw: columns with fewer than
15 used numbers. -/
def availableColumns (usedNumbers : List Draw) : List (Letter × Nat × Nat) :=
  columnsSpec.filter (fun c => usedInColumn usedNumbers c.1 < 15)

/-- The availableNumbers loop of generateRandomDraw: numbers of the chosen column
range whose draw key is not in usedNumbers. -/
def availableNumbers (usedNumbers : List Draw) (L : Letter) (lo hi : Nat) : List Nat :=
  (generateRange lo hi).filter (fun n => !(usedNumbers.contains (L, n)))

/-- generateRandomDraw(usedNumbers) of src/lib/bingo.js. Each element of choices
supplies the two Math.random draws of one pass (column pick, number pick); the
source retries itself recursively with fresh randomness when the randomly chosen
column has no available number, which consumes the next element of choices here.
Results: some none models the null sentinel (no available column), some (some d)
a returned draw, and none the case where the supplied randomness ran out mid
retry (the source would keep drawing fresh randomness forever there). -/
def generateRandomDraw (usedNumbers : List Draw) :
    List (Nat × Nat) → Option (Option Draw)
  | [] => none
  | (c, n) :: rest =>
    let avail := availableColumns usedNumbers
    if avail.isEmpty then some none
    else
      let col := avail.getD (c % avail.length) (Letter.B, 1, 15)
      let nums := availableNumbers usedNumbers col.1 col.2.1 col.2.2
      if nums.isEmpty then generateRandomDraw usedNumbers rest
      else some (some (col.1, nums.getD (n % nums.length) 0))

/-- The while loop of generateCompleteDrawSequence: while fewer than 75 draws,
draw (with the randomness for call number k supplied by f k), push the draw, and
stop at the null sentinel (or if the modeled randomness runs out). The loop
makes at most 75 iterations, so fuel 75 is exact. -/
def drawSequenceGo (f : Nat → Nat × Nat) : Nat → List Draw → List Draw
  | 0, draws => draws
  | Nat.succ fuel, draws =>
    if draws.length < 75 then
      match generateRandomDraw draws [f draws.length] with
      | some (some d) => drawSequenceGo f fuel (draws ++ [d])
      | _ => draws
    else draws

/-- generateCompleteDrawSequence() of src/lib/bingo.js (the draws list doubles as
the usedNumbers list, exactly as in the source). -/
def generateCompleteDrawSequence (f : Nat → Nat × Nat) : List Draw :=
  drawSequenceGo f 75 []

/-- One cell of the 5x5 display array of cardToDisplayArray. -/
structure DisplayCell where
  value : Cell
  letter : Letter
  isFree : Bool
deriving DecidableEq, Repr

/-- Default cell for in-bounds list reads of the display conversion. -/
def dfltDisplayCell : DisplayCell := ⟨Cell.num 0, Letter.B, false⟩

/-- cardToDisplayArray(card) of src/lib/bingo.js: 5 rows, each listing the five
columns in order B I N G O with value, letter and isFree flag. -/
def cardToDisplayArray (card : Card) : List (List DisplayCell) :=
  (List.range 5).map (fun row =>
    letters.map (fun L =>
      { value := (card.col L).getD row Cell.free
        letter := L
        isFree := (card.col L).getD row Cell.free = Cell.free }))

/-- displayArrayToCard(displayArray) of src/lib/bingo.js: starting from empty
columns, each row in order writes its cell values at the next row index of each
column; for rows processed in order this appends one value per column per row. -/
def displayArrayToCard (displayArray : List (List DisplayCell)) : Card :=
  displayArray.foldl
    (fun acc row =>
      { B := acc.B ++ [(row.getD 0 dfltDisplayCell).value]
        I := acc.I ++ [(row.getD 1 dfltDisplayCell).value]
        N := acc.N ++ [(row.getD 2 dfltDisplayCell).value]
        G := acc.G ++ [(row.getD 3 dfltDisplayCell).value]
        O := acc.O ++ [(row.getD 4 dfltDisplayCell).value] })
    ⟨[], [], [], [], []⟩

/-! Wallet handlers. User ids are opaque; a JS userId string is modeled as a
natural number, with 0 playing the role of the falsy empty string for the
!userId check. Balances are the global userBalances map, modeled as an
association list; absent users read as the default balance 10.00. -/

/-- Association list lookup, Map.get semantics (first binding wins). -/
def alookup {α β : Type} [DecidableEq α] (m : List (α × β)) (k : α) : Option β :=
  (m.find? (fun p => p.1 = k)).map Prod.snd

/-- Association list store, Map.set semantics: overwrite the existing binding or
append a new one. -/
def astore {α β : Type} [DecidableEq α] (m : List (α × β)) (k : α) (v : β) :
    List (α × β) :=
  if (m.find? (fun p => p.1 = k)).isSome then
    m.map (fun p => if p.1 = k then (k, v) else p)
  else m ++ [(k, v)]

/-- getUserBalance(userId): the stored balance, defaulting to 10.00. -/
def getUserBalance (balances : List (Nat × ℚ)) (userId : Nat) : ℚ :=
  (alookup balances userId).getD 10

/-- storeUserBalance(userId, balance). -/
def storeUserBalance (balances : List (Nat × ℚ)) (userId : Nat) (balance : ℚ) :
    List (Nat × ℚ) :=
  astore balances userId balance

/-- The responses of the two withdrawal handlers (status code implied:
invalidBody, amountNotPositive, belowMin, aboveMax, insufficient are 400;
completed is 200). -/
inductive WithdrawResponse where
  | invalidBody
  | amountNotPositive
  | belowMin
  | aboveMax
  | insufficient (currentBalance requestedAmount : ℚ)
  | completed (newBalance : ℚ)
deriving DecidableEq, Repr

/-- handleWithdraw of src/server.js (request body already parsed; the typeof
amount check is carried by the type of the model). It validates userId truthy
and amount > 0, then rejects amounts above the current balance with the
insufficient-balance body carrying currentBalance and requestedAmount, storing
nothing; otherwise it stores the decremented balance. -/
def handleWithdraw (balances : List (Nat × ℚ)) (userId : Nat) (amount : ℚ) :
    WithdrawResponse × List (Nat × ℚ) :=
  if userId = 0 ∨ amount ≤ 0 then (WithdrawResponse.invalidBody, balances)
  else
    let currentBalance := getUserBalance balances userId
    if amount > currentBalance then
      (WithdrawResponse.insufficient currentBalance amount, balances)
    else
      (WithdrawResponse.completed (currentBalance - amount),
       storeUserBalance balances userId (currentBalance - amount))

/-- The api/wallet/withdraw.js handler (development branch, the deployed demo
mode; the production branch differs only after the insufficient-balance check).
Validation order as in the source: body, amount > 0, minimum 1.00, maximum
5000, then the balance check. -/
def apiWithdrawHandler (balances : List (Nat × ℚ)) (userId : Nat) (amount : ℚ) :
    WithdrawResponse × List (Nat × ℚ) :=
  if userId = 0 then (WithdrawResponse.invalidBody, balances)
  else if amount ≤ 0 then (WithdrawResponse.amountNotPositive, balances)
  else if amount < 1 then (WithdrawResponse.belowMin, balances)
  else if amount > 5000 then (WithdrawResponse.aboveMax, balances)
  else
    let currentBalance := getUserBalance balances userId
    if amount > currentBalance then
      (WithdrawResponse.insufficient currentBalance amount, balances)
    else
      (WithdrawResponse.completed (currentBalance - amount),
       storeUserBalance balances userId (currentBalance - amount))

/-! Sessions and the game loop. -/

/-- The session states of the source. -/
inductive GameState where
  | waiting | countdown | playing | finished
deriving DecidableEq, Repr

/-- A winner record as pushed by checkForWinners of api/join-session.js. -/
structure Winner where
  userId : Nat
  playerId : Nat
  winningDraw : Draw
  prize : ℚ
deriving DecidableEq, Repr

/-- A player record as created on join (fields relevant to the claims;
joinedAt is an uninterpreted timestamp and is omitted). -/
structure Player where
  id : Nat
  userId : Nat
  cardIndices : List Int
  cardCost : ℚ
  balance : ℚ
  isReady : Bool
  hasWon : Bool
deriving DecidableEq, Repr

/-- A session record (fields relevant to the claims; timestamps omitted).
winners and prizePerWinner are absent in JS until endGame writes them; they are
modeled as present from the start with the neutral values [] and 0. -/
structure Session where
  players : List Player
  drawnNumbers : List Draw
  gameState : GameState
  countdown : Int
  maxPlayers : Nat
  minPlayers : Nat
  active : Bool
  winners : List Winner
  prizePerWinner : ℚ
deriving DecidableEq, Repr

/-- The fresh session object built by the join and create handlers:
state waiting, countdown 60, maxPlayers 50, minPlayers 2, active. -/
def newSession : Session where
  players := []
  drawnNumbers := []
  gameState := GameState.waiting
  countdown := 60
  maxPlayers := 50
  minPlayers := 2
  active := true
  winners := []
  prizePerWinner := 0

/-- The player object built on join: starting balance 10.00, ready, not yet won. -/
def newPlayer (playerId userId : Nat) (cardIndices : List Int) (cardCost : ℚ) :
    Player where
  id := playerId
  userId := userId
  cardIndices := cardIndices
  cardCost := cardCost
  balance := 10
  isReady := true
  hasWon := false

/-- players.find(p => p.userId === winner.userId) followed by a balance update:
modify the first player with the given userId, leave the rest alone. -/
def updateFirst (ps : List Player) (uid : Nat) (f : Player → Player) : List Player :=
  match ps with
  | [] => []
  | p :: rest => if p.userId = uid then f p :: rest else p :: updateFirst rest uid f

/-- The prize distribution loop of endGame in api/join-session.js: for each
winner, find the matching player and add prizePerWinner to their balance. -/
def creditWinners (ps : List Player) (winners : List Winner) (prize : ℚ) :
    List Player :=
  winners.foldl
    (fun acc w => updateFirst acc w.userId (fun p => { p with balance := p.balance + prize }))
    ps

/-- endGame(sessionId, winners, prizePerWinner) of api/join-session.js: marks the
session finished and inactive, records the winner list and per-winner prize, and
credits each listed winner (the balance mutation acts on the same player objects
the stored session references, so it persists in the stored session). -/
def endGame (s : Session) (winners : List Winner) (prizePerWinner : ℚ) : Session :=
  { s with
    gameState := GameState.finished
    winners := winners
    prizePerWinner := prizePerWinner
    active := false
    players := creditWinners s.players winners prizePerWinner }

/-- The per-player demo win condition inside checkForWinners: at least 10 draws
so far, the player has not already won, and the Math.random() < 0.1 roll came up
(the roll outcome is supplied by winRoll, indexed by the player userId). -/
def winCond (s : Session) (winRoll : Nat → Bool) (p : Player) : Bool :=
  decide (10 ≤ s.drawnNumbers.length) && !p.hasWon && winRoll p.userId

/-- checkForWinners(sessionId, lastDraw) of api/join-session.js. If the session
is inactive nothing happens. Otherwise: total pot is the sum of player card
costs; the winners list collects every player meeting the demo win condition
(marking those players hasWon, a mutation that persists in the stored session);
if any winner was found the game ends with 80 percent of the pot split evenly;
afterwards, if 75 or more numbers have been drawn, the game is ended again with
an empty winner list and zero prize (overwriting any winners just recorded). -/
def checkForWinners (s : Session) (winRoll : Nat → Bool) (lastDraw : Draw) : Session :=
  if !s.active then s
  else
    let totalPot : ℚ := (s.players.map Player.cardCost).sum
    let winners : List Winner :=
      (s.players.filter (winCond s winRoll)).map
        (fun p => { userId := p.userId, playerId := p.id, winningDraw := lastDraw, prize := 0 })
    let s1 : Session :=
      { s with players := s.players.map (fun p => if winCond s winRoll p then { p with hasWon := true } else p) }
    let s2 : Session :=
      if winners.isEmpty then s1
      else
        let prizePerWinner := totalPot * (4 / 5) / winners.length
        endGame s1 (winners.map (fun w => { w with prize := prizePerWinner })) prizePerWinner
    if 75 ≤ s.drawnNumbers.length then endGame s2 [] 0 else s2

/-- A candidate draw of the do-while loop in startDrawingNumbers: the column
letter picked once per tick (c % 5) and a random number of its range
(min + n % 15, where max - min + 1 = 15). Every candidate is a valid token by
construction. -/
def genCandidate (p : Nat × Nat) : Draw :=
  let L := letters.getD (p.1 % 5) Letter.B
  (L, colMin L + p.2 % 15)

/-- One tick of the startDrawingNumbers interval of api/join-session.js. The
random column is chosen once per tick (c); numRands supplies the random number
picks of the successive do-while iterations within that column. The do-while
exits at the first candidate not yet drawn, or after 100 attempts; with the
exit condition attempts >= 100 the game is ended (empty winners, zero prize)
unless a fresh candidate appeared within the first 99 attempts, in which case
the fresh draw is appended and checkForWinners runs. If the session is gone,
inactive, or not playing, the tick clears itself and changes nothing. -/
def drawTick (s : Session) (c : Nat) (numRands : List Nat) (winRoll : Nat → Bool) :
    Session :=
  if !s.active || !(s.gameState = GameState.playing) then s
  else
    match ((numRands.take 99).map (fun n => genCandidate (c, n))).find?
        (fun d => !(s.drawnNumbers.contains d)) with
    | none => endGame s [] 0
    | some draw =>
      checkForWinners { s with drawnNumbers := s.drawnNumbers ++ [draw] } winRoll draw

/-! The two join handlers. Session ids are modeled as naturals; the fixed id
string demo_session of src/server.js is the key 0, and generated session ids
are supplied as parameters (assumed nonzero where it matters). Card indices
are JS numbers, modeled as integers (server.js never range-checks them). -/

/-- A parsed join request body (userId, cardIndices, cardCost), with the typeof
checks carried by the types; userId 0 models the falsy empty string. -/
structure JoinRequest where
  userId : Nat
  cardIndices : List Int
  cardCost : ℚ
deriving DecidableEq, Repr

/-- The global mutable state touched by handleJoinSession of src/server.js:
the card reservation map, the sessions map, the gameLoops map (keys only), and
the set of interval timers created by startGameLoop, one entry (the session id)
per created timer. -/
structure ServerState where
  cardReservations : List (Int × Nat)
  sessions : List (Nat × Session)
  gameLoops : List Nat
  timers : List Nat
deriving DecidableEq, Repr

/-- startGameLoop(sessionId) of src/server.js: registers a new interval timer
and stores it in the gameLoops map under the session id. -/
def startGameLoopServer (st : ServerState) (sessionId : Nat) : ServerState :=
  { st with
    timers := st.timers ++ [sessionId]
    gameLoops := if st.gameLoops.contains sessionId then st.gameLoops
                 else st.gameLoops ++ [sessionId] }

/-- Responses of handleJoinSession of src/server.js (status implied: invalidBody
and cardTaken are 400, alreadyIn and joined are 200). -/
inductive JoinResponse where
  | invalidBody
  | cardTaken (index : Int) (reservedBy : Nat)
  | alreadyIn (sessionId playerId : Nat)
  | joined (sessionId playerId : Nat) (gameState : GameState) (playerCount : Nat)
deriving DecidableEq, Repr

/-- The tail of handleJoinSession once the session (existing demo session, or a
freshly created and stored one) is fixed: idempotent return of an existing
player record; otherwise append the player, store the session with state
countdown exactly when the new count reaches minPlayers, and start the game
loop when that state is countdown and no loop is registered for the session. -/
def joinSessionCont (st2 : ServerState) (sid : Nat) (session : Session)
    (req : JoinRequest) (freshPlayerId : Nat) : JoinResponse × ServerState :=
  match session.players.find? (fun p => p.userId = req.userId) with
  | some p => (JoinResponse.alreadyIn sid p.id, st2)
  | none =>
    let player := newPlayer freshPlayerId req.userId req.cardIndices req.cardCost
    let players := session.players ++ [player]
    let newGameState :=
      if session.minPlayers ≤ players.length then GameState.countdown
      else GameState.waiting
    let session2 := { session with players := players, gameState := newGameState }
    let st3 : ServerState := { st2 with sessions := astore st2.sessions sid session2 }
    let st4 : ServerState :=
      if newGameState = GameState.countdown ∧ ¬ st3.gameLoops.contains sid then
        startGameLoopServer st3 sid
      else st3
    (JoinResponse.joined sid freshPlayerId newGameState players.length, st4)

/-- handleJoinSession of src/server.js. freshSessionId and freshPlayerId model
the two random id generators. Source order: body check; per-index reservation
availability check (no count or range validation of cardIndices at all); reserve
every requested index; look up the session demo_session, creating and storing a
fresh session under a fresh id when absent; then the joinSessionCont tail. -/
def handleJoinSession (st : ServerState) (req : JoinRequest)
    (freshSessionId freshPlayerId : Nat) : JoinResponse × ServerState :=
  if req.userId = 0 then (JoinResponse.invalidBody, st)
  else
    match req.cardIndices.find? (fun i => (alookup st.cardReservations i).isSome) with
    | some i =>
      (JoinResponse.cardTaken i ((alookup st.cardReservations i).getD 0), st)
    | none =>
      let st1 : ServerState :=
        { st with cardReservations :=
            req.cardIndices.foldl (fun m i => astore m i req.userId) st.cardReservations }
      match alookup st1.sessions 0 with
      | some session => joinSessionCont st1 0 session req freshPlayerId
      | none =>
        joinSessionCont
          { st1 with sessions := astore st1.sessions freshSessionId newSession }
          freshSessionId newSession req freshPlayerId

/-- The state touched by the api/join-session.js handler: the sessions map and
the interval timers created by its (unguarded) startGameLoop. -/
structure ApiState where
  sessions : List (Nat × Session)
  timers : List Nat
deriving DecidableEq, Repr

/-- Responses of the api/join-session.js handler (status implied: invalidBody,
invalidCount, invalidIndex, sessionFull are 400; notFound 404; serverError 500;
alreadyIn and joined 200). -/
inductive ApiJoinResponse where
  | invalidBody
  | invalidCount
  | invalidIndex (index : Int)
  | notFound
  | sessionFull
  | serverError
  | alreadyIn (sessionId playerId : Nat)
  | joined (sessionId playerId : Nat) (gameState : GameState)
deriving DecidableEq, Repr

/-- The handler of api/join-session.js. Source order: body check; count check
(1 to 3 cards); per-index range check (0 to 19); session lookup when a session
id is given (404 when missing) or a fresh in-memory session otherwise (never
stored at creation, so the later updateSession throws for it, caught as a 500);
capacity check; idempotent return of an existing player record; append the new
player; updateSession with the new player list and with state countdown exactly
when the count reaches minPlayers; finally startGameLoop whenever the new count
is 1 or equals minPlayers (no registry guard). -/
def apiJoinHandler (st : ApiState) (sessionIdParam : Option Nat) (req : JoinRequest)
    (freshSessionId freshPlayerId : Nat) : ApiJoinResponse × ApiState :=
  if req.userId = 0 then (ApiJoinResponse.invalidBody, st)
  else if req.cardIndices.length = 0 ∨ 3 < req.cardIndices.length then
    (ApiJoinResponse.invalidCount, st)
  else
    match req.cardIndices.find? (fun i => i < 0 ∨ 19 < i) with
    | some i => (ApiJoinResponse.invalidIndex i, st)
    | none =>
      let look : Option (Nat × Session) :=
        match sessionIdParam with
        | some sid => (alookup st.sessions sid).map (fun s => (sid, s))
        | none => some (freshSessionId, newSession)
      match sessionIdParam, look with
      | some _, none => (ApiJoinResponse.notFound, st)
      | _, none => (ApiJoinResponse.notFound, st)
      | _, some (sid, session) =>
        if session.maxPlayers ≤ session.players.length then
          (ApiJoinResponse.sessionFull, st)
        else
          match session.players.find? (fun p => p.userId = req.userId) with
          | some p => (ApiJoinResponse.alreadyIn sid p.id, st)
          | none =>
            let player := newPlayer freshPlayerId req.userId req.cardIndices req.cardCost
            let players := session.players ++ [player]
            let newGameState :=
              if session.minPlayers ≤ players.length then GameState.countdown
              else GameState.waiting
            if (alookup st.sessions sid).isSome then
              let session2 := { session with players := players, gameState := newGameState }
              let st1 : ApiState := { st with sessions := astore st.sessions sid session2 }
              let st2 : ApiState :=
                if players.length = 1 ∨ players.length = session.minPlayers then
                  { st1 with timers := st1.timers ++ [sid] }
                else st1
              (ApiJoinResponse.joined sid freshPlayerId session.gameState, st2)
            else
              (ApiJoinResponse.serverError, st)

/-- A column is well formed when it has 5 pairwise distinct number cells
within the given range. -/
def colOk (l : List Cell) (lo hi : Nat) : Prop :=
  l.length = 5 ∧ l.Nodup ∧ ∀ c ∈ l, ∃ n, c = Cell.num n ∧ lo ≤ n ∧ n ≤ hi

/-! Helper lemmas. -/

theorem generateRange_length (s e : Nat) : (generateRange s e).length = e + 1 - s := by
  simp [generateRange]

theorem mem_generateRange {s e x : Nat} : x ∈ generateRange s e ↔ s ≤ x ∧ x ≤ e := by
  simp only [generateRange, List.mem_map, List.mem_range]
  constructor
  · rintro ⟨i, hi, rfl⟩
    exact ⟨Nat.le_add_right s i, by show s + i ≤ e; omega⟩
  · rintro ⟨h1, h2⟩
    exact ⟨x - s, by omega, by show s + (x - s) = x; omega⟩

theorem generateRange_nodup (s e : Nat) : (generateRange s e).Nodup := by
  refine List.Nodup.map ?_ (List.nodup_range _)
  intro a b h
  have h2 : s + a = s + b := h
  omega

theorem swap_cons_perm (d : Nat) :
    ∀ (t : List Nat) (m : Nat) (a : Nat), m < t.length →
      List.Perm (t.getD m d :: t.set m a) (a :: t)
  | b :: t, 0, a, _ => by
    simpa using List.Perm.swap a b t
  | b :: t, m + 1, a, h => by
    have ih := swap_cons_perm d t m a (by simpa using h)
    have e1 : (b :: t).getD (m + 1) d :: (b :: t).set (m + 1) a
        = t.getD m d :: b :: t.set m a := by simp
    rw [e1]
    have s1 : List.Perm (t.getD m d :: b :: t.set m a) (b :: t.getD m d :: t.set m a) :=
      List.Perm.swap _ _ _
    have s2 : List.Perm (b :: t.getD m d :: t.set m a) (b :: a :: t) := ih.cons b
    have s3 : List.Perm (b :: a :: t) (a :: b :: t) := List.Perm.swap _ _ _
    exact (s1.trans s2).trans s3

theorem listSwap_perm :
    ∀ (l : List Nat) (i j : Nat), i < l.length → j < l.length →
      List.Perm (listSwap l i j) l
  | [], i, j, hi, _ => by simp at hi
  | a :: t, 0, 0, _, _ => by simp [listSwap]
  | a :: t, 0, j + 1, _, hj => by
    have : listSwap (a :: t) 0 (j + 1) = t.getD j 0 :: t.set j a := by
      simp [listSwap]
    rw [this]
    exact swap_cons_perm 0 t j a (by simpa using hj)
  | a :: t, i + 1, 0, hi, _ => by
    have : listSwap (a :: t) (i + 1) 0 = t.getD i 0 :: t.set i a := by
      simp [listSwap]
    rw [this]
    exact swap_cons_perm 0 t i a (by simpa using hi)
  | a :: t, i + 1, j + 1, hi, hj => by
    have : listSwap (a :: t) (i + 1) (j + 1) = a :: listSwap t i j := by
      simp [listSwap]
    rw [this]
    exact (listSwap_perm t i j (by simpa using hi) (by simpa using hj)).cons a

theorem listSwap_length (l : List Nat) (i j : Nat) :
    (listSwap l i j).length = l.length := by
  simp [listSwap]

theorem shuffleAux_perm (rand : Nat → Nat) :
    ∀ (n : Nat) (l : List Nat), n < l.length → List.Perm (shuffleAux rand l n) l
  | 0, l, _ => by simp [shuffleAux]
  | n + 1, l, h => by
    have h1 : n + 1 < l.length := h
    have h2 : rand (n + 1) % (n + 2) < l.length :=
      lt_of_lt_of_le (Nat.mod_lt _ (by omega)) (by omega)
    have hswap := listSwap_perm l (n + 1) (rand (n + 1) % (n + 2)) h1 h2
    have hlen : n < (listSwap l (n + 1) (rand (n + 1) % (n + 2))).length := by
      rw [listSwap_length]; omega
    exact (shuffleAux_perm rand n _ hlen).trans hswap

theorem shuffleArray_perm (l : List Nat) (rand : Nat → Nat) :
    List.Perm (shuffleArray l rand) l := by
  unfold shuffleArray
  rcases l with _ | ⟨a, t⟩
  · simp [shuffleAux]
  · exact shuffleAux_perm rand _ _ (by simp)

theorem shuffleArray_length (l : List Nat) (rand : Nat → Nat) :
    (shuffleArray l rand).length = l.length :=
  (shuffleArray_perm l rand).length_eq

/-- The first five values of a shuffled range form a well formed column. -/
theorem take_shuffle_colOk (lo hi : Nat) (rand : Nat → Nat)
    (hlen : hi + 1 - lo = 15) :
    colOk (((shuffleArray (generateRange lo hi) rand).take 5).map Cell.num) lo hi := by
  have hperm := shuffleArray_perm (generateRange lo hi) rand
  have hnd : (shuffleArray (generateRange lo hi) rand).Nodup :=
    hperm.nodup_iff.mpr (generateRange_nodup lo hi)
  have hlen15 : (shuffleArray (generateRange lo hi) rand).length = 15 := by
    rw [shuffleArray_length, generateRange_length, hlen]
  refine ⟨?_, ?_, ?_⟩
  · rw [List.length_map, List.length_take, hlen15]
    omega
  · exact ((hnd.sublist (List.take_sublist 5 _)).map (fun a b h => by injection h))
  · intro c hc
    rcases List.mem_map.mp hc with ⟨n, hn, rfl⟩
    have : n ∈ shuffleArray (generateRange lo hi) rand :=
      List.mem_of_mem_take hn
    have := mem_generateRange.mp (hperm.subset this)
    exact ⟨n, rfl, this.1, this.2⟩

/-- C8: every card returned by generateBingoCard has, in each of its 5 columns,
5 pairwise distinct values within the declared range of the column (B 1-15,
I 16-30, N 31-45, G 46-60, O 61-75), except that the cell at row 2 of the N
column is the FREE marker, which is the only free cell of the card. -/
theorem c8_generateBingoCard_columns (rand : Letter → Nat → Nat) :
    colOk (generateBingoCard rand).B 1 15 ∧
    colOk (generateBingoCard rand).I 16 30 ∧
    colOk (generateBingoCard rand).G 46 60 ∧
    colOk (generateBingoCard rand).O 61 75 ∧
    (generateBingoCard rand).N.length = 5 ∧
    (generateBingoCard rand).N.Nodup ∧
    (generateBingoCard rand).N.getD 2 (Cell.num 0) = Cell.free ∧
    (∀ i : Nat, i < 5 → i ≠ 2 →
      ∃ n, (generateBingoCard rand).N.getD i (Cell.num 0) = Cell.num n ∧
        31 ≤ n ∧ n ≤ 45) := by
  simp only [generateBingoCard]
  refine ⟨take_shuffle_colOk 1 15 (rand Letter.B) (by norm_num),
    take_shuffle_colOk 16 30 (rand Letter.I) (by norm_num),
    take_shuffle_colOk 46 60 (rand Letter.G) (by norm_num),
    take_shuffle_colOk 61 75 (rand Letter.O) (by norm_num), ?_, ?_, ?_, ?_⟩
  all_goals
    obtain ⟨hMlen, hMnd, hMmem⟩ := take_shuffle_colOk 31 45 (rand Letter.N) (by norm_num)
    set M := ((shuffleArray (generateRange 31 45) (rand Letter.N)).take 5).map Cell.num with hMdef
  · show (M.set 2 Cell.free).length = 5
    simpa using hMlen
  · show (M.set 2 Cell.free).Nodup
    refine hMnd.set ?_
    intro hfree
    rcases hMmem _ hfree with ⟨n, hn, _⟩
    exact Cell.noConfusion hn
  · show (M.set 2 Cell.free).getD 2 (Cell.num 0) = Cell.free
    have h2 : 2 < (M.set 2 Cell.free).length := by simpa using by omega
    rw [List.getD_eq_getElem _ _ h2]
    exact List.getElem_set_self (h := by simpa using h2)
  · show ∀ i : Nat, i < 5 → i ≠ 2 →
      ∃ n, (M.set 2 Cell.free).getD i (Cell.num 0) = Cell.num n ∧ 31 ≤ n ∧ n ≤ 45
    intro i hi hne
    have hiM : i < M.length := by omega
    have hset : i < (M.set 2 Cell.free).length := by simpa using hiM
    rw [List.getD_eq_getElem _ _ hset]
    rw [List.getElem_set_ne (h := by omega) (by omega)]
    exact hMmem _ (List.getElem_mem hiM)

theorem list_length_five {α : Type} (l : List α) (h : l.length = 5) :
    ∃ a b c d e, l = [a, b, c, d, e] := by
  rcases l with _ | ⟨a, _ | ⟨b, _ | ⟨c, _ | ⟨d, _ | ⟨e, _ | ⟨f, t⟩⟩⟩⟩⟩⟩ <;>
    simp only [List.length] at h <;> try omega
  exact ⟨a, b, c, d, e, rfl⟩

/-- C10: for every card whose 5 columns each hold 5 cell values, converting to
the 5x5 display array and back returns the original card:
displayArrayToCard (cardToDisplayArray card) = card. -/
theorem c10_display_roundtrip (card : Card)
    (hB : card.B.length = 5) (hI : card.I.length = 5) (hN : card.N.length = 5)
    (hG : card.G.length = 5) (hO : card.O.length = 5) :
    displayArrayToCard (cardToDisplayArray card) = card := by
  obtain ⟨B, I, N, G, O⟩ := card
  simp only at hB hI hN hG hO
  obtain ⟨b0, b1, b2, b3, b4, rfl⟩ := list_length_five B hB
  obtain ⟨i0, i1, i2, i3, i4, rfl⟩ := list_length_five I hI
  obtain ⟨n0, n1, n2, n3, n4, rfl⟩ := list_length_five N hN
  obtain ⟨g0, g1, g2, g3, g4, rfl⟩ := list_length_five G hG
  obtain ⟨o0, o1, o2, o3, o4, rfl⟩ := list_length_five O hO
  rfl

/-- C10 witness: the round trip on a concrete card. -/
theorem c10_display_roundtrip_witness :
    displayArrayToCard (cardToDisplayArray
      ⟨[Cell.num 1, Cell.num 2, Cell.num 3, Cell.num 4, Cell.num 5],
       [Cell.num 16, Cell.num 17, Cell.num 18, Cell.num 19, Cell.num 20],
       [Cell.num 31, Cell.num 32, Cell.free, Cell.num 34, Cell.num 35],
       [Cell.num 46, Cell.num 47, Cell.num 48, Cell.num 49, Cell.num 50],
       [Cell.num 61, Cell.num 62, Cell.num 63, Cell.num 64, Cell.num 65]⟩)
    = ⟨[Cell.num 1, Cell.num 2, Cell.num 3, Cell.num 4, Cell.num 5],
       [Cell.num 16, Cell.num 17, Cell.num 18, Cell.num 19, Cell.num 20],
       [Cell.num 31, Cell.num 32, Cell.free, Cell.num 34, Cell.num 35],
       [Cell.num 46, Cell.num 47, Cell.num 48, Cell.num 49, Cell.num 50],
       [Cell.num 61, Cell.num 62, Cell.num 63, Cell.num 64, Cell.num 65]⟩ :=
  c10_display_roundtrip _ (by rfl) (by rfl) (by rfl) (by rfl) (by rfl)

theorem checkLineWin_head_error (cells : List CellInfo) (s : Nat) (next : Nat → Nat)
    (h : (cells.getD s dfltCell).isFree = false) :
    checkLineWin cells s next 5 = Except.error JsError.refErrorMarkedNumbers := by
  have hrange : List.range 5 = [0, 1, 2, 3, 4] := by decide
  rw [checkLineWin, hrange]
  simp only [checkLineWinGo]
  rw [show (s + if True then 0 else next (0 - 1)) = s by simp, h]
  simp

/-- C1: for every generated card and every marked set, checkCardForWin does not
return a boolean at all: the very first line check reaches a non free cell
(row 0 of the B column) and the guard inside checkLineWin evaluates the
out-of-scope identifier markedNumbers, throwing a ReferenceError. -/
theorem c1_checkCardForWin_throws (rand : Letter → Nat → Nat)
    (markedNumbers : List Draw) :
    checkCardForWin (generateBingoCard rand) markedNumbers
      = Except.error JsError.refErrorMarkedNumbers := by
  obtain ⟨v, t, hB⟩ : ∃ v t, (generateBingoCard rand).B = Cell.num v :: t := by
    obtain ⟨hlen0, -, hmem0⟩ := take_shuffle_colOk 1 15 (rand Letter.B) (by norm_num)
    have hBdef : (generateBingoCard rand).B
        = ((shuffleArray (generateRange 1 15) (rand Letter.B)).take 5).map Cell.num := by
      simp only [generateBingoCard]
    have hlen : (generateBingoCard rand).B.length = 5 := by rw [hBdef]; exact hlen0
    have hmem : ∀ c ∈ (generateBingoCard rand).B, ∃ n, c = Cell.num n ∧ 1 ≤ n ∧ n ≤ 15 := by
      rw [hBdef]
      exact hmem0
    rcases hx : (generateBingoCard rand).B with _ | ⟨c, t⟩
    · rw [hx] at hlen; simp at hlen
    · rcases hmem c (by rw [hx]; exact List.mem_cons_self c t) with ⟨n, hn, -, -⟩
      exact ⟨n, t, by rw [hn]⟩
  have hhead : (cardCells (generateBingoCard rand)).getD 0 dfltCell
      = ⟨Cell.num v, Letter.B, 0⟩ := by
    simp [cardCells, letters, Card.col, hB, List.enum_cons]
  have hfirst : checkLineWin (cardCells (generateBingoCard rand)) (0 * 5)
      (fun i => i + 1) 5 = Except.error JsError.refErrorMarkedNumbers := by
    refine checkLineWin_head_error _ _ _ ?_
    rw [Nat.zero_mul, hhead]
    rfl
  have hrange : List.range 5 = [0, 1, 2, 3, 4] := by decide
  rw [checkCardForWin, lineChecks, hrange]
  simp only [List.map_cons, List.cons_append, List.foldr_cons, hfirst]
  rfl

/-- C9 counterexample: a withdrawal of 6000 from the default balance 10.00
exceeds the current balance, yet the api wallet handler rejects it with the
maximum-amount validation error, not with the insufficient-balance error that
carries currentBalance and requestedAmount. -/
theorem c9_counterexample :
    getUserBalance [] 1 = 10 ∧ (10 : ℚ) < 6000 ∧
    apiWithdrawHandler [] 1 6000 = (WithdrawResponse.aboveMax, []) := by
  refine ⟨rfl, by norm_num, ?_⟩
  simp [apiWithdrawHandler]
  norm_num

/-- C9 amended: for every withdrawal request with positive amount greater than
the current balance of the user, the server.js handler responds with the
insufficient-balance error carrying currentBalance and requestedAmount and
leaves the balances unchanged; the api wallet handler does the same provided
the amount also passes its range validation (1.00 to 5000). -/
theorem c9_withdraw_insufficient (balances : List (Nat × ℚ)) (userId : Nat)
    (amount : ℚ) (huid : userId ≠ 0) (hpos : 0 < amount)
    (hgt : getUserBalance balances userId < amount) :
    handleWithdraw balances userId amount
      = (WithdrawResponse.insufficient (getUserBalance balances userId) amount,
         balances) ∧
    (1 ≤ amount → amount ≤ 5000 →
      apiWithdrawHandler balances userId amount
        = (WithdrawResponse.insufficient (getUserBalance balances userId) amount,
           balances)) := by
  constructor
  · unfold handleWithdraw
    rw [if_neg (by push_neg; exact ⟨huid, hpos⟩)]
    simp only []
    rw [if_pos hgt]
  · intro h1 h5
    unfold apiWithdrawHandler
    rw [if_neg huid, if_neg (by push_neg; exact hpos), if_neg (by push_neg; exact h1),
      if_neg (by push_neg; exact h5)]
    simp only []
    rw [if_pos hgt]

/-- C9 witness: withdrawing 20 at the default balance 10.00 is rejected with the
insufficient-balance body by both handlers. -/
theorem c9_withdraw_insufficient_witness :
    handleWithdraw [] 1 20 = (WithdrawResponse.insufficient 10 20, []) ∧
    apiWithdrawHandler [] 1 20 = (WithdrawResponse.insufficient 10 20, []) := by
  have h := c9_withdraw_insufficient [] 1 20 (by norm_num) (by norm_num)
    (by show getUserBalance [] 1 < 20; rw [show getUserBalance [] 1 = 10 from rfl]; norm_num)
  exact ⟨h.1, h.2 (by norm_num) (by norm_num)⟩

/-- C5 counterexample: the src/server.js join handler accepts a request for the
four cards 0,1,2,3 (length outside 1..3): it responds 200 joined, and it
reserves all four requested indices, instead of rejecting with a 400 validation
error and leaving the reservations untouched. -/
theorem c5_counterexample :
    (handleJoinSession ⟨[], [], [], []⟩ ⟨1, [0, 1, 2, 3], 4⟩ 55 77).1
      = JoinResponse.joined 55 77 GameState.waiting 1 ∧
    (handleJoinSession ⟨[], [], [], []⟩ ⟨1, [0, 1, 2, 3], 4⟩ 55 77).2.cardReservations
      = [(0, 1), (1, 1), (2, 1), (3, 1)] := by
  exact ⟨rfl, rfl⟩

/-- C5 amended: for every join request whose cardIndices has length outside 1..3
or an index outside 0..19, the api/join-session.js handler responds 400 with a
validation error and changes no state; the src/server.js join handler performs
no such validation: whenever none of the requested indices is reserved it
reserves every one of them and responds with a non-validation response. -/
theorem joinSessionCont_reservations (st2 : ServerState) (sid : Nat)
    (sess : Session) (req : JoinRequest) (b : Nat) :
    (joinSessionCont st2 sid sess req b).2.cardReservations = st2.cardReservations := by
  unfold joinSessionCont
  split
  · rfl
  next =>
    dsimp only
    split <;> split <;> simp [startGameLoopServer]

theorem joinSessionCont_resp (st2 : ServerState) (sid : Nat)
    (sess : Session) (req : JoinRequest) (b : Nat) :
    (joinSessionCont st2 sid sess req b).1 ≠ JoinResponse.invalidBody ∧
    ∀ i u, (joinSessionCont st2 sid sess req b).1 ≠ JoinResponse.cardTaken i u := by
  unfold joinSessionCont
  constructor
  · split <;> simp
  · intro i u
    split <;> simp

theorem serverJoin_reserves (sst : ServerState) (req : JoinRequest) (a b : Nat)
    (huid : req.userId ≠ 0)
    (hfree : ∀ i ∈ req.cardIndices, alookup sst.cardReservations i = none) :
    (handleJoinSession sst req a b).2.cardReservations
        = req.cardIndices.foldl (fun m i => astore m i req.userId) sst.cardReservations ∧
      (handleJoinSession sst req a b).1 ≠ JoinResponse.invalidBody ∧
      ∀ i u, (handleJoinSession sst req a b).1 ≠ JoinResponse.cardTaken i u := by
  have hfind : req.cardIndices.find? (fun i => (alookup sst.cardReservations i).isSome)
      = none := by
    rw [List.find?_eq_none]
    intro i hmem
    simp [hfree i hmem]
  unfold handleJoinSession
  rw [if_neg huid, hfind]
  refine ⟨?_, ?_, ?_⟩
  · split
    next j heq => exact Option.noConfusion heq
    next heq =>
      dsimp only
      split <;> rw [joinSessionCont_reservations]
  · split
    next j heq => exact Option.noConfusion heq
    next heq =>
      dsimp only
      split <;> exact (joinSessionCont_resp _ _ _ _ _).1
  · intro i u
    split
    next j heq => exact Option.noConfusion heq
    next heq =>
      dsimp only
      split <;> exact (joinSessionCont_resp _ _ _ _ _).2 i u

theorem c5_join_validation (st : ApiState) (sidParam : Option Nat)
    (req : JoinRequest) (fSid fPid : Nat) (huid : req.userId ≠ 0)
    (hbad : req.cardIndices.length = 0 ∨ 3 < req.cardIndices.length ∨
      ∃ i ∈ req.cardIndices, i < 0 ∨ 19 < i) :
    ((apiJoinHandler st sidParam req fSid fPid).1 = ApiJoinResponse.invalidCount ∨
      ∃ i, (apiJoinHandler st sidParam req fSid fPid).1 = ApiJoinResponse.invalidIndex i) ∧
    (apiJoinHandler st sidParam req fSid fPid).2 = st ∧
    (∀ (sst : ServerState) (a b : Nat),
      (∀ i ∈ req.cardIndices, alookup sst.cardReservations i = none) →
      (handleJoinSession sst req a b).2.cardReservations
          = req.cardIndices.foldl (fun m i => astore m i req.userId) sst.cardReservations ∧
        (handleJoinSession sst req a b).1 ≠ JoinResponse.invalidBody ∧
        ∀ i u, (handleJoinSession sst req a b).1 ≠ JoinResponse.cardTaken i u) := by
  have hapi : apiJoinHandler st sidParam req fSid fPid = (ApiJoinResponse.invalidCount, st)
      ∨ ∃ j, apiJoinHandler st sidParam req fSid fPid = (ApiJoinResponse.invalidIndex j, st) := by
    unfold apiJoinHandler
    rw [if_neg huid]
    by_cases hlen : req.cardIndices.length = 0 ∨ 3 < req.cardIndices.length
    · rw [if_pos hlen]
      exact Or.inl rfl
    · rw [if_neg hlen]
      have hidx : ∃ i ∈ req.cardIndices, i < 0 ∨ 19 < i := by
        rcases hbad with h | h | h
        · exact absurd (Or.inl h) hlen
        · exact absurd (Or.inr h) hlen
        · exact h
      have hsome : (req.cardIndices.find? (fun i => i < 0 ∨ 19 < i)).isSome := by
        rw [List.find?_isSome]
        rcases hidx with ⟨i, hmem, hi⟩
        exact ⟨i, hmem, by simpa using hi⟩
      rcases Option.isSome_iff_exists.mp hsome with ⟨j, hj⟩
      rw [hj]
      exact Or.inr ⟨j, rfl⟩
  refine ⟨?_, ?_, ?_⟩
  · rcases hapi with h | ⟨j, h⟩
    · exact Or.inl (by rw [h])
    · exact Or.inr ⟨j, by rw [h]⟩
  · rcases hapi with h | ⟨j, h⟩ <;> rw [h]
  · intro sst a b hfree
    exact serverJoin_reserves sst req a b huid hfree

/-- C5 witness: a request for four cards is rejected by the api handler with the
count validation error without touching the state, while the server handler
reserves all four. -/
theorem c5_join_validation_witness :
    ((apiJoinHandler ⟨[], []⟩ none ⟨1, [0, 1, 2, 3], 4⟩ 9 8).1
        = ApiJoinResponse.invalidCount ∨
      ∃ i, (apiJoinHandler ⟨[], []⟩ none ⟨1, [0, 1, 2, 3], 4⟩ 9 8).1
        = ApiJoinResponse.invalidIndex i) ∧
    (apiJoinHandler ⟨[], []⟩ none ⟨1, [0, 1, 2, 3], 4⟩ 9 8).2 = ⟨[], []⟩ ∧
    (∀ (sst : ServerState) (a b : Nat),
      (∀ i ∈ ([0, 1, 2, 3] : List Int), alookup sst.cardReservations i = none) →
      (handleJoinSession sst ⟨1, [0, 1, 2, 3], 4⟩ a b).2.cardReservations
          = ([0, 1, 2, 3] : List Int).foldl (fun m i => astore m i 1) sst.cardReservations ∧
        (handleJoinSession sst ⟨1, [0, 1, 2, 3], 4⟩ a b).1 ≠ JoinResponse.invalidBody ∧
        ∀ i u, (handleJoinSession sst ⟨1, [0, 1, 2, 3], 4⟩ a b).1
          ≠ JoinResponse.cardTaken i u) :=
  c5_join_validation ⟨[], []⟩ none ⟨1, [0, 1, 2, 3], 4⟩ 9 8 (by norm_num)
    (by right; left; norm_num)

/-- C6: joining again with the same userId is not idempotent in src/server.js.
With user 7 already in the demo session holding card 0 (and its reservation), a
second identical join is rejected 400 with the already-taken error (whose text
says taken by another player, although the reserver is this same user), and a
second join asking for a different card returns the existing player id but
creates a brand new reservation for that card first. -/
theorem c6_repeat_join_not_idempotent :
    (handleJoinSession
        ⟨[(0, 7)], [(0, { newSession with players := [newPlayer 42 7 [0] 1] })], [], []⟩
        ⟨7, [0], 1⟩ 99 43).1 = JoinResponse.cardTaken 0 7 ∧
    (handleJoinSession
        ⟨[(0, 7)], [(0, { newSession with players := [newPlayer 42 7 [0] 1] })], [], []⟩
        ⟨7, [1], 1⟩ 99 43).1 = JoinResponse.alreadyIn 0 42 ∧
    (handleJoinSession
        ⟨[(0, 7)], [(0, { newSession with players := [newPlayer 42 7 [0] 1] })], [], []⟩
        ⟨7, [1], 1⟩ 99 43).2.cardReservations = [(0, 7), (1, 7)] := by
  exact ⟨rfl, rfl, rfl⟩

/-- The server keeps at most one game loop per session: the timers list has no
duplicate session id, and a timer exists exactly for the sessions registered in
the gameLoops map. -/
def loopInv (st : ServerState) : Prop :=
  st.timers.Nodup ∧ ∀ x, x ∈ st.timers ↔ x ∈ st.gameLoops

theorem joinSessionCont_timers (st2 : ServerState) (sid : Nat) (sess : Session)
    (req : JoinRequest) (b : Nat) :
    ((joinSessionCont st2 sid sess req b).2.timers = st2.timers ∧
      (joinSessionCont st2 sid sess req b).2.gameLoops = st2.gameLoops) ∨
    ((joinSessionCont st2 sid sess req b).2.timers = st2.timers ++ [sid] ∧
      (joinSessionCont st2 sid sess req b).2.gameLoops = st2.gameLoops ++ [sid] ∧
      sid ∉ st2.gameLoops) := by
  unfold joinSessionCont
  split
  · exact Or.inl ⟨rfl, rfl⟩
  next =>
    dsimp only
    split <;> split
    next hcond =>
      rcases hcond with ⟨-, hreg⟩
      have hnot : sid ∉ st2.gameLoops := by
        intro hmem
        exact hreg (by simpa [List.elem_iff] using hmem)
      refine Or.inr ⟨rfl, ?_, hnot⟩
      unfold startGameLoopServer
      dsimp only
      rw [if_neg (by simpa [List.elem_iff] using hnot)]
    next => exact Or.inl ⟨rfl, rfl⟩
    next hcond =>
      rcases hcond with ⟨-, hreg⟩
      have hnot : sid ∉ st2.gameLoops := by
        intro hmem
        exact hreg (by simpa [List.elem_iff] using hmem)
      refine Or.inr ⟨rfl, ?_, hnot⟩
      unfold startGameLoopServer
      dsimp only
      rw [if_neg (by simpa [List.elem_iff] using hnot)]
    next => exact Or.inl ⟨rfl, rfl⟩

theorem join_timers_cases (st : ServerState) (req : JoinRequest) (a b : Nat) :
    ((handleJoinSession st req a b).2.timers = st.timers ∧
      (handleJoinSession st req a b).2.gameLoops = st.gameLoops) ∨
    (∃ sid, (handleJoinSession st req a b).2.timers = st.timers ++ [sid] ∧
      (handleJoinSession st req a b).2.gameLoops = st.gameLoops ++ [sid] ∧
      sid ∉ st.gameLoops ∧ ((alookup st.sessions 0).isSome → sid = 0)) := by
  unfold handleJoinSession
  by_cases huid : req.userId = 0
  · rw [if_pos huid]
    exact Or.inl ⟨rfl, rfl⟩
  rw [if_neg huid]
  split
  · exact Or.inl ⟨rfl, rfl⟩
  next heq =>
    dsimp only
    split
    next sess hs =>
      rcases joinSessionCont_timers
          { st with cardReservations :=
              req.cardIndices.foldl (fun m i => astore m i req.userId) st.cardReservations }
          0 sess req b with ⟨ht, hg⟩ | ⟨ht, hg, hnot⟩
      · exact Or.inl ⟨ht, hg⟩
      · exact Or.inr ⟨0, ht, hg, hnot, fun _ => rfl⟩
    next hs =>
      rcases joinSessionCont_timers
          { cardReservations :=
              req.cardIndices.foldl (fun m i => astore m i req.userId) st.cardReservations,
            sessions := astore st.sessions a newSession,
            gameLoops := st.gameLoops, timers := st.timers }
          a newSession req b with ⟨ht, hg⟩ | ⟨ht, hg, hnot⟩
      · exact Or.inl ⟨ht, hg⟩
      · refine Or.inr ⟨a, ht, hg, hnot, fun hsome => ?_⟩
        rw [hs] at hsome
        simp at hsome

/-- C7 amended: in src/server.js the loop-start is guarded by the gameLoops
registry, so joins preserve the at-most-one-timer-per-session invariant; when a
loop is already registered for the existing demo session, a further join starts
no new timer (the second start is a no-op); and a join into the demo session by
a new user flips the state to countdown exactly when the new player count
reaches minPlayers. (In api/join-session.js the start is NOT idempotent, see
the counterexample: the loop is started both at the first join and at the join
reaching minPlayers.) -/
theorem c7_loop_start_guarded (st : ServerState) (req : JoinRequest) (a b : Nat)
    (hinv : loopInv st) :
    loopInv (handleJoinSession st req a b).2 ∧
    (∀ sid, (handleJoinSession st req a b).2.timers.count sid ≤ 1) ∧
    ((alookup st.sessions 0).isSome → 0 ∈ st.gameLoops →
      (handleJoinSession st req a b).2.timers = st.timers) ∧
    (∀ sess, alookup st.sessions 0 = some sess → req.userId ≠ 0 →
      (∀ i ∈ req.cardIndices, alookup st.cardReservations i = none) →
      sess.players.find? (fun q => q.userId = req.userId) = none →
      (handleJoinSession st req a b).1
        = JoinResponse.joined 0 b
            (if sess.minPlayers ≤ sess.players.length + 1 then GameState.countdown
             else GameState.waiting)
            (sess.players.length + 1)) := by
  obtain ⟨hnd, hiff⟩ := hinv
  have hinv2 : loopInv (handleJoinSession st req a b).2 := by
    rcases join_timers_cases st req a b with ⟨ht, hg⟩ | ⟨sid, ht, hg, hnot, -⟩
    · exact ⟨ht ▸ hnd, fun x => by rw [ht, hg]; exact hiff x⟩
    · constructor
      · rw [ht]
        simp only [List.nodup_append, List.nodup_cons, List.not_mem_nil,
          not_false_iff, List.nodup_nil, and_true, true_and]
        refine ⟨hnd, ?_⟩
        intro x hx hx1
        simp only [List.mem_singleton] at hx1
        subst hx1
        exact hnot ((hiff x).mp hx)
      · intro x
        rw [ht, hg]
        simp only [List.mem_append, List.mem_singleton]
        constructor
        · rintro (h | h)
          · exact Or.inl ((hiff x).mp h)
          · exact Or.inr h
        · rintro (h | h)
          · exact Or.inl ((hiff x).mpr h)
          · exact Or.inr h
  refine ⟨hinv2, ?_, ?_, ?_⟩
  · intro sid
    exact List.nodup_iff_count_le_one.mp hinv2.1 sid
  · intro hsome hreg
    rcases join_timers_cases st req a b with ⟨ht, -⟩ | ⟨sid, ht, -, hnot, hzero⟩
    · exact ht
    · exact absurd (hzero hsome ▸ hreg) hnot
  · intro sess hsess huid hfree hnew
    have hfind : req.cardIndices.find? (fun i => (alookup st.cardReservations i).isSome)
        = none := by
      rw [List.find?_eq_none]
      intro i hmem
      simp [hfree i hmem]
    unfold handleJoinSession
    rw [if_neg huid, hfind]
    split
    next j hx => exact Option.noConfusion hx
    next =>
      dsimp only
      split
      next sess2 hs2 =>
        have hss : sess2 = sess := by
          have : alookup st.sessions 0 = some sess2 := hs2
          rw [hsess] at this
          exact (Option.some.injEq _ _).mp this.symm
        subst hss
        unfold joinSessionCont
        rw [hnew]
        dsimp only
        simp [List.length_append]
      next hs2 =>
        rw [show alookup
            ({ st with cardReservations :=
                req.cardIndices.foldl (fun m i => astore m i req.userId) st.cardReservations
              : ServerState }).sessions 0 = alookup st.sessions 0 from rfl, hsess] at hs2
        exact Option.noConfusion hs2

/-- C7 counterexample: in api/join-session.js the game loop start is not
idempotent. With minPlayers 2, the first join starts the loop (players.length
is 1) and the second join starts it again (players.length equals minPlayers):
after two joins the same session 5 has two interval timers, so starting the
loop a second time is not a no-op, and more than one timer is active for one
session. -/
theorem c7_counterexample :
    ((apiJoinHandler (apiJoinHandler ⟨[(5, newSession)], []⟩ (some 5) ⟨1, [0], 1⟩ 90 91).2
        (some 5) ⟨2, [1], 1⟩ 92 93).2.timers = [5, 5]) ∧
    ¬ ((apiJoinHandler (apiJoinHandler ⟨[(5, newSession)], []⟩ (some 5) ⟨1, [0], 1⟩ 90 91).2
        (some 5) ⟨2, [1], 1⟩ 92 93).2.timers.count 5 ≤ 1) := by
  exact ⟨rfl, by decide⟩

/-- C7 witness: the guarded server loop start at a concrete state: an empty
demo session with no loop; after a fresh user joins, the invariant still holds,
every session has at most one timer, and the join response carries state
waiting (1 player is below minPlayers 2). -/
theorem c7_loop_start_guarded_witness :
    loopInv (handleJoinSession ⟨[], [(0, newSession)], [], []⟩ ⟨1, [0], 1⟩ 9 8).2 ∧
    (∀ sid, (handleJoinSession ⟨[], [(0, newSession)], [], []⟩ ⟨1, [0], 1⟩ 9 8).2.timers.count
      sid ≤ 1) ∧
    ((alookup (ServerState.sessions ⟨[], [(0, newSession)], [], []⟩) 0).isSome →
      0 ∈ (ServerState.gameLoops ⟨[], [(0, newSession)], [], []⟩) →
      (handleJoinSession ⟨[], [(0, newSession)], [], []⟩ ⟨1, [0], 1⟩ 9 8).2.timers
        = (ServerState.timers ⟨[], [(0, newSession)], [], []⟩)) ∧
    (∀ sess, alookup (ServerState.sessions ⟨[], [(0, newSession)], [], []⟩) 0 = some sess →
      (1 : Nat) ≠ 0 →
      (∀ i ∈ ([0] : List Int),
        alookup (ServerState.cardReservations ⟨[], [(0, newSession)], [], []⟩) i = none) →
      sess.players.find? (fun q => q.userId = 1) = none →
      (handleJoinSession ⟨[], [(0, newSession)], [], []⟩ ⟨1, [0], 1⟩ 9 8).1
        = JoinResponse.joined 0 8
            (if sess.minPlayers ≤ sess.players.length + 1 then GameState.countdown
             else GameState.waiting)
            (sess.players.length + 1)) :=
  c7_loop_start_guarded ⟨[], [(0, newSession)], [], []⟩ ⟨1, [0], 1⟩ 9 8
    ⟨by simp, fun x => by simp⟩

theorem updateFirst_eq_map :
    ∀ (ps : List Player) (uid : Nat) (f : Player → Player),
      (ps.map Player.userId).Nodup →
      updateFirst ps uid f = ps.map (fun p => if p.userId = uid then f p else p)
  | [], _, _, _ => rfl
  | p :: rest, uid, f, h => by
    rw [List.map_cons, List.nodup_cons] at h
    simp only [updateFirst, List.map_cons]
    by_cases hp : p.userId = uid
    · rw [if_pos hp, if_pos hp]
      congr 1
      have hrest : ∀ q ∈ rest, (if q.userId = uid then f q else q) = q := by
        intro q hq
        rw [if_neg]
        intro he
        apply h.1
        rw [hp, ← he]
        exact List.mem_map_of_mem Player.userId hq
      rw [List.map_congr_left hrest]
      simp
    · rw [if_neg hp, if_neg hp]
      rw [updateFirst_eq_map rest uid f h.2]

theorem map_userId_update (ps : List Player) (g : Player → Player)
    (hg : ∀ p, (g p).userId = p.userId) :
    (ps.map g).map Player.userId = ps.map Player.userId := by
  rw [List.map_map]
  apply List.map_congr_left
  intro p _
  exact hg p

theorem creditWinners_eq_map :
    ∀ (ws : List Winner) (ps : List Player) (prize : ℚ),
      (ps.map Player.userId).Nodup →
      creditWinners ps ws prize
        = ps.map (fun p =>
            { p with balance := p.balance
                + prize * ((ws.filter (fun w => w.userId = p.userId)).length : ℚ) })
  | [], ps, prize, _ => by
    show ps = _
    symm
    apply List.map_id''
    intro p
    simp
  | w :: ws, ps, prize, h => by
    show creditWinners
        (updateFirst ps w.userId (fun p => { p with balance := p.balance + prize })) ws prize
      = _
    rw [updateFirst_eq_map ps w.userId _ h]
    rw [creditWinners_eq_map ws _ prize
      (by
        rw [map_userId_update]
        · exact h
        · intro p
          by_cases hp : p.userId = w.userId
          · rw [if_pos hp]
          · rw [if_neg hp])]
    rw [List.map_map]
    apply List.map_congr_left
    intro p _
    by_cases hp : p.userId = w.userId
    · have hfil : (w :: ws).filter (fun w2 => w2.userId = p.userId)
          = w :: ws.filter (fun w2 => w2.userId = p.userId) := by
        rw [List.filter_cons_of_pos]
        simp [hp]
      simp only [Function.comp, if_pos hp]
      rw [hfil]
      congr 1
      simp only [List.length_cons]
      push_cast
      ring
    · have hfil : (w :: ws).filter (fun w2 => w2.userId = p.userId)
          = ws.filter (fun w2 => w2.userId = p.userId) := by
        rw [List.filter_cons_of_neg]
        simp
        intro he
        exact hp he.symm
      simp only [Function.comp, if_neg hp]
      rw [hfil]

theorem filter_count_userId :
    ∀ (ps : List Player) (c : Player → Bool) (p : Player),
      (ps.map Player.userId).Nodup → p ∈ ps →
      ((ps.filter c).filter (fun q => q.userId = p.userId)).length
        = if c p then 1 else 0
  | [], _, _, _, hp => absurd hp (List.not_mem_nil _)
  | q :: rest, c, p, h, hp => by
    rw [List.map_cons, List.nodup_cons] at h
    rcases List.mem_cons.mp hp with rfl | hp2
    · have hrest0 : ((rest.filter c).filter (fun q2 => q2.userId = p.userId)).length = 0 := by
        rw [List.length_eq_zero, List.filter_eq_nil_iff]
        intro a ha
        simp only [decide_eq_true_eq]
        intro he
        apply h.1
        rw [← he]
        exact List.mem_map_of_mem Player.userId (List.mem_of_mem_filter ha)
      by_cases hc : c p
      · rw [List.filter_cons_of_pos (by simpa using hc)]
        rw [List.filter_cons_of_pos (by simp)]
        rw [List.length_cons, hrest0, if_pos hc]
      · rw [List.filter_cons_of_neg (by simpa using hc)]
        rw [hrest0, if_neg hc]
    · have hq : ¬ (q.userId = p.userId) := by
        intro he
        apply h.1
        rw [he]
        exact List.mem_map_of_mem Player.userId hp2
      by_cases hc : c q
      · rw [List.filter_cons_of_pos (by simpa using hc)]
        rw [List.filter_cons_of_neg (by simpa using hq)]
        exact filter_count_userId rest c p h.2 hp2
      · rw [List.filter_cons_of_neg (by simpa using hc)]
        exact filter_count_userId rest c p h.2 hp2

theorem endGame_players (s : Session) (ws : List Winner) (q : ℚ) :
    (endGame s ws q).players = creditWinners s.players ws q := rfl

theorem creditWinners_nil (ps : List Player) (q : ℚ) :
    creditWinners ps [] q = ps := rfl

/-- One settlement pass over the player list: marking the winners of the pass
and crediting each of them once (by the amount passed to endGame), pointwise. -/
theorem credit_pass (players : List Player) (lastDraw : Draw) (cond : Player → Bool)
    (q prize : ℚ) (hnd : (players.map Player.userId).Nodup) :
    creditWinners
      (players.map (fun p => if cond p then { p with hasWon := true } else p))
      (((players.filter cond).map (fun p => Winner.mk p.userId p.id lastDraw 0)).map
        (fun w => { w with prize := q }))
      prize
    = players.map (fun p =>
        { p with
          hasWon := p.hasWon || cond p
          balance := p.balance + (if cond p then prize else 0) }) := by
  have hmark : ∀ p : Player, ((if cond p then { p with hasWon := true } else p) :
      Player).userId = p.userId := by
    intro p
    by_cases hw : cond p
    · rw [if_pos hw]
    · rw [if_neg hw]
  have hndm : ((players.map
      (fun p => if cond p then { p with hasWon := true } else p)).map
        Player.userId).Nodup := by
    rw [map_userId_update _ _ hmark]
    exact hnd
  rw [creditWinners_eq_map _ _ _ hndm, List.map_map]
  apply List.map_congr_left
  intro p hp
  have hcount :
      (((((players.filter cond).map (fun p => Winner.mk p.userId p.id lastDraw 0)).map
          (fun w => { w with prize := q })).filter
        (fun w => w.userId = p.userId)).length)
        = if cond p then 1 else 0 := by
    have e1 : (((players.filter cond).map
        (fun p => Winner.mk p.userId p.id lastDraw 0)).map
          (fun w => { w with prize := q })).filter (fun w => w.userId = p.userId)
        = (((players.filter cond).map
            (fun p => Winner.mk p.userId p.id lastDraw 0)).filter
              (fun w => w.userId = p.userId)).map (fun w => { w with prize := q }) := by
      rw [List.filter_map]
      rfl
    have e2 : ((players.filter cond).map
        (fun p => Winner.mk p.userId p.id lastDraw 0)).filter
          (fun w => w.userId = p.userId)
        = ((players.filter cond).filter (fun r => r.userId = p.userId)).map
            (fun p => Winner.mk p.userId p.id lastDraw 0) := by
      rw [List.filter_map]
      rfl
    rw [e1, List.length_map, e2, List.length_map]
    exact filter_count_userId players cond p hnd hp
  by_cases hw : cond p
  · simp only [Function.comp, if_pos hw]
    rw [hcount, if_pos hw]
    simp [hw]
  · simp only [Function.comp, if_neg hw]
    rw [hcount, if_neg hw]
    simp [hw]

/-- C3: prize settlement. For an active session with pairwise distinct player
user ids, checkForWinners transforms the player list pointwise: every winner of
the pass (the demo win condition) is marked hasWon and credited exactly once by
calculatePrizePerWinner P n, where P is the pot (sum of all player stakes) and
n the number of winners of the pass; every other balance is unchanged. With
n = 0 the per-winner prize is 0 and nobody is credited; with n >= 1 the prize
is 0.8 * P / n. (The draw-75 overwrite calls endGame a second time with an
empty winner list, crediting nothing further.) -/
theorem c3_prize_settlement (s : Session) (winRoll : Nat → Bool) (lastDraw : Draw)
    (hact : s.active = true)
    (hnd : (s.players.map Player.userId).Nodup) :
    (checkForWinners s winRoll lastDraw).players
      = s.players.map (fun p =>
          { p with
            hasWon := p.hasWon || winCond s winRoll p
            balance := p.balance
              + (if winCond s winRoll p
                 then calculatePrizePerWinner ((s.players.map Player.cardCost).sum)
                        ((s.players.filter (winCond s winRoll)).length)
                 else 0) }) ∧
    calculatePrizePerWinner ((s.players.map Player.cardCost).sum) 0 = 0 ∧
    (∀ n : Nat, 0 < n →
      calculatePrizePerWinner ((s.players.map Player.cardCost).sum) n
        = (s.players.map Player.cardCost).sum * (4 / 5) / n) := by
  refine ⟨?_, by simp [calculatePrizePerWinner], ?_⟩
  swap
  · intro n hn
    unfold calculatePrizePerWinner
    rw [if_neg (by omega)]
  unfold checkForWinners
  rw [if_neg (by simp [hact])]
  dsimp only
  have hred : ∀ t : Session,
      (if 75 ≤ s.drawnNumbers.length then endGame t [] 0 else t).players = t.players := by
    intro t
    split
    · rw [endGame_players, creditWinners_nil]
    · rfl
  rw [hred]
  split
  next hemp =>
    have hnowin : ∀ p ∈ s.players, winCond s winRoll p = false := by
      simpa using hemp
    show s.players.map (fun p => if winCond s winRoll p then { p with hasWon := true } else p)
        = _
    apply List.map_congr_left
    intro p hp
    rw [hnowin p hp]
    simp
  next hemp =>
    have hne : (s.players.filter (winCond s winRoll)).map
        (fun p => Winner.mk p.userId p.id lastDraw 0) ≠ [] := by
      simpa using hemp
    have hn0 : (s.players.filter (winCond s winRoll)).length ≠ 0 := by
      intro hx
      apply hne
      rw [List.length_eq_zero.mp hx]
      rfl
    have hprize :
        ((s.players.map Player.cardCost).sum * (4 / 5)
            / (((s.players.filter (winCond s winRoll)).map
                (fun p => Winner.mk p.userId p.id lastDraw 0)).length : ℚ))
          = calculatePrizePerWinner ((s.players.map Player.cardCost).sum)
              ((s.players.filter (winCond s winRoll)).length) := by
      unfold calculatePrizePerWinner
      rw [if_neg hn0, List.length_map]
    have hkey := credit_pass s.players lastDraw (winCond s winRoll)
      ((s.players.map Player.cardCost).sum * (4 / 5)
        / (((s.players.filter (winCond s winRoll)).map
            (fun p => Winner.mk p.userId p.id lastDraw 0)).length : ℚ))
      ((s.players.map Player.cardCost).sum * (4 / 5)
        / (((s.players.filter (winCond s winRoll)).map
            (fun p => Winner.mk p.userId p.id lastDraw 0)).length : ℚ))
      hnd
    rw [endGame_players]
    simp only [← hprize]
    exact hkey

/-- A concrete two-player session used by witnesses: users 7 and 8 with one
card each, ten numbers already drawn, in playing state. -/
def sampleSession : Session :=
  { newSession with
    players := [newPlayer 1 7 [0] 1, newPlayer 2 8 [1] 1]
    drawnNumbers := [(Letter.B, 1), (Letter.B, 2), (Letter.B, 3), (Letter.B, 4),
      (Letter.B, 5), (Letter.B, 6), (Letter.B, 7), (Letter.B, 8), (Letter.B, 9),
      (Letter.B, 10)]
    gameState := GameState.playing }

/-- The win roll used by witnesses: only user 7 rolls a win. -/
def sampleRoll : Nat → Bool := fun u => u = 7

/-- C3 witness: the settlement law applied to the concrete two-player session. -/
theorem c3_prize_settlement_witness :
    (checkForWinners sampleSession sampleRoll (Letter.B, 11)).players
      = sampleSession.players.map (fun p =>
          { p with
            hasWon := p.hasWon || winCond sampleSession sampleRoll p
            balance := p.balance
              + (if winCond sampleSession sampleRoll p
                 then calculatePrizePerWinner
                        ((sampleSession.players.map Player.cardCost).sum)
                        ((sampleSession.players.filter
                          (winCond sampleSession sampleRoll)).length)
                 else 0) }) ∧
    calculatePrizePerWinner ((sampleSession.players.map Player.cardCost).sum) 0 = 0 ∧
    (∀ n : Nat, 0 < n →
      calculatePrizePerWinner ((sampleSession.players.map Player.cardCost).sum) n
        = (sampleSession.players.map Player.cardCost).sum * (4 / 5) / n) :=
  c3_prize_settlement sampleSession sampleRoll (Letter.B, 11) rfl (by decide)

theorem endGame_gameState (s : Session) (ws : List Winner) (q : ℚ) :
    (endGame s ws q).gameState = GameState.finished := rfl

theorem endGame_active (s : Session) (ws : List Winner) (q : ℚ) :
    (endGame s ws q).active = false := rfl

theorem endGame_winners (s : Session) (ws : List Winner) (q : ℚ) :
    (endGame s ws q).winners = ws := rfl

/-- The outcome of one checkForWinners pass, as needed by the draw loop claim:
for an active session, the pass ends the game (finished and inactive) exactly
when winners are found or at least 75 numbers are drawn, the recorded winner
list is empty whenever the 75 threshold is hit, and it is nonempty exactly when
winners are found below the threshold. -/
theorem checkForWinners_outcome (s : Session) (winRoll : Nat → Bool) (lastDraw : Draw)
    (hact : s.active = true) (hst : s.gameState = GameState.playing) :
    (((checkForWinners s winRoll lastDraw).gameState = GameState.finished) ↔
      (s.players.filter (winCond s winRoll) ≠ [] ∨ 75 ≤ s.drawnNumbers.length)) ∧
    (((checkForWinners s winRoll lastDraw).active = false) ↔
      (s.players.filter (winCond s winRoll) ≠ [] ∨ 75 ≤ s.drawnNumbers.length)) ∧
    (75 ≤ s.drawnNumbers.length → (checkForWinners s winRoll lastDraw).winners = []) ∧
    (¬ 75 ≤ s.drawnNumbers.length → s.players.filter (winCond s winRoll) ≠ [] →
      (checkForWinners s winRoll lastDraw).winners ≠ []) ∧
    (¬ 75 ≤ s.drawnNumbers.length → s.players.filter (winCond s winRoll) = [] →
      (checkForWinners s winRoll lastDraw).gameState = GameState.playing ∧
      (checkForWinners s winRoll lastDraw).active = true) := by
  unfold checkForWinners
  rw [if_neg (by simp [hact])]
  dsimp only
  by_cases hT : 75 ≤ s.drawnNumbers.length
  · rw [if_pos hT]
    rw [endGame_gameState, endGame_active, endGame_winners]
    refine ⟨by simp [hT], by simp [hT], fun _ => rfl, fun h75 _ => absurd hT h75,
      fun h75 _ => absurd hT h75⟩
  · rw [if_neg hT]
    by_cases hW : s.players.filter (winCond s winRoll) = []
    · have hemp : ((s.players.filter (winCond s winRoll)).map
          (fun p => Winner.mk p.userId p.id lastDraw 0)).isEmpty = true := by
        rw [hW]
        rfl
      rw [if_pos hemp]
      refine ⟨?_, ?_, fun h => absurd h hT, fun _ h => absurd hW h, fun _ _ => ⟨hst, hact⟩⟩
      · simp [hst, hW, hT]
      · simp [hact, hW, hT]
    · have hemp : ((s.players.filter (winCond s winRoll)).map
          (fun p => Winner.mk p.userId p.id lastDraw 0)).isEmpty = false := by
        rcases hx : s.players.filter (winCond s winRoll) with _ | ⟨p, rest⟩
        · exact absurd hx hW
        · rfl
      rw [if_neg (by simp [hemp])]
      rw [endGame_gameState, endGame_active, endGame_winners]
      refine ⟨by simp [hW], by simp [hW], fun h => absurd h hT, fun _ _ => ?_,
        fun _ h => absurd h hW⟩
      intro hx
      rcases hy : s.players.filter (winCond s winRoll) with _ | ⟨p, rest⟩
      · exact hW hy
      · rw [hy] at hx
        exact List.noConfusion (List.map_eq_nil_iff.mp (List.map_eq_nil_iff.mp hx))

theorem genCandidate_valid (p : Nat × Nat) : validDraw (genCandidate p) := by
  rcases p with ⟨c, n⟩
  have h15 : n % 15 < 15 := Nat.mod_lt _ (by omega)
  show colMin (letters.getD (c % 5) Letter.B)
      ≤ colMin (letters.getD (c % 5) Letter.B) + n % 15
    ∧ colMin (letters.getD (c % 5) Letter.B) + n % 15
      ≤ colMax (letters.getD (c % 5) Letter.B)
  constructor
  · exact Nat.le_add_right _ _
  · unfold colMax
    omega

/-- C2 amended: for an active playing session, one tick of the drawing loop
ends the game (gameState finished and active false) exactly when (a) none of
the first 99 random candidates is a fresh number — which is guaranteed once all
75 tokens are drawn but can also happen earlier — or (b) winners are found
after the new draw, or (c) the new draw is the 75th or beyond. The recorded
winner list is empty in case (a), and also in case (c) even when winners were
found at that draw (the second endGame overwrites them); it is nonempty exactly
when winners are found below the 75 threshold. -/
theorem c2_draw_tick (s : Session) (c : Nat) (numRands : List Nat) (winRoll : Nat → Bool)
    (hact : s.active = true) (hst : s.gameState = GameState.playing) :
    (((drawTick s c numRands winRoll).gameState = GameState.finished) ↔
      (((numRands.take 99).map (fun n => genCandidate (c, n))).find? (fun d => !(s.drawnNumbers.contains d)) = none
        ∨ s.players.filter (fun p =>
            decide (10 ≤ s.drawnNumbers.length + 1) && !p.hasWon && winRoll p.userId) ≠ []
        ∨ 75 ≤ s.drawnNumbers.length + 1)) ∧
    (((drawTick s c numRands winRoll).active = false) ↔
      (((numRands.take 99).map (fun n => genCandidate (c, n))).find? (fun d => !(s.drawnNumbers.contains d)) = none
        ∨ s.players.filter (fun p =>
            decide (10 ≤ s.drawnNumbers.length + 1) && !p.hasWon && winRoll p.userId) ≠ []
        ∨ 75 ≤ s.drawnNumbers.length + 1)) ∧
    (((numRands.take 99).map (fun n => genCandidate (c, n))).find? (fun d => !(s.drawnNumbers.contains d)) = none →
      (drawTick s c numRands winRoll).winners = []) ∧
    (∀ d, ((numRands.take 99).map (fun n => genCandidate (c, n))).find? (fun d => !(s.drawnNumbers.contains d))
        = some d → 75 ≤ s.drawnNumbers.length + 1 →
      (drawTick s c numRands winRoll).winners = []) ∧
    (∀ d, ((numRands.take 99).map (fun n => genCandidate (c, n))).find? (fun d => !(s.drawnNumbers.contains d))
        = some d → ¬ 75 ≤ s.drawnNumbers.length + 1 →
      s.players.filter (fun p =>
        decide (10 ≤ s.drawnNumbers.length + 1) && !p.hasWon && winRoll p.userId) ≠ [] →
      (drawTick s c numRands winRoll).winners ≠ []) ∧
    ((∀ d : Draw, validDraw d → d ∈ s.drawnNumbers) →
      ((numRands.take 99).map (fun n => genCandidate (c, n))).find? (fun d => !(s.drawnNumbers.contains d)) = none) := by
  have hexh : (∀ d : Draw, validDraw d → d ∈ s.drawnNumbers) →
      ((numRands.take 99).map (fun n => genCandidate (c, n))).find? (fun d => !(s.drawnNumbers.contains d)) = none := by
    intro hall
    rw [List.find?_eq_none]
    intro d hd
    rcases List.mem_map.mp hd with ⟨n, -, rfl⟩
    simp [hall _ (genCandidate_valid (c, n))]
  unfold drawTick
  rw [if_neg (by simp [hact, hst])]
  rcases hfind : ((numRands.take 99).map (fun n => genCandidate (c, n))).find?
      (fun d => !(s.drawnNumbers.contains d)) with _ | d
  · rw [endGame_gameState, endGame_active, endGame_winners]
    exact ⟨iff_of_true rfl (Or.inl rfl), iff_of_true rfl (Or.inl rfl), fun _ => rfl,
      fun d hd => Option.noConfusion hd, fun d hd => Option.noConfusion hd,
      fun _ => rfl⟩
  · have hF : ¬ ((some d : Option Draw) = none) := Option.noConfusion
    have hlen : (({ s with drawnNumbers := s.drawnNumbers ++ [d] } : Session)).drawnNumbers.length
        = s.drawnNumbers.length + 1 := by
      simp
    have hWeq : winCond { s with drawnNumbers := s.drawnNumbers ++ [d] } winRoll
        = (fun p => decide (10 ≤ s.drawnNumbers.length + 1) && !p.hasWon && winRoll p.userId) := by
      funext p
      unfold winCond
      simp
    have hout := checkForWinners_outcome
      { s with drawnNumbers := s.drawnNumbers ++ [d] } winRoll d hact hst
    rw [hWeq] at hout
    try simp only [List.length_append, List.length_singleton] at hout
    obtain ⟨ho1, ho2, ho3, ho4, ho5⟩ := hout
    refine ⟨?_, ?_, fun h => absurd h hF, ?_, ?_, fun hall => absurd hfind (by rw [hexh hall]; exact Option.noConfusion)⟩
    · rw [ho1]
      constructor
      · intro h
        exact Or.inr h
      · rintro (h | h)
        · exact absurd h hF
        · exact h
    · rw [ho2]
      constructor
      · intro h
        exact Or.inr h
      · rintro (h | h)
        · exact absurd h hF
        · exact h
    · intro d2 hd2 hT
      have : d2 = d := (Option.some_inj.mp hd2).symm
      subst this
      exact ho3 hT
    · intro d2 hd2 hT hW
      have : d2 = d := (Option.some_inj.mp hd2).symm
      subst this
      exact ho4 hT hW

/-- The single-draw playing session used by the C2 counterexample. -/
def stalledSession : Session :=
  { newSession with
    gameState := GameState.playing
    drawnNumbers := [(Letter.B, 1)] }

/-- C2 counterexample: a playing session with a single drawn number ends with
an empty winner list on a tick whose 99 random candidates all repeat that
number, although no winner was found and only 1 of the 75 numbers has been
drawn — refuting the claim that the game ends exactly on winners or on
exhaustion of all 75 numbers. -/
theorem c2_counterexample :
    (drawTick stalledSession 0 (List.replicate 99 0) (fun _ => false)).gameState
      = GameState.finished ∧
    (drawTick stalledSession 0 (List.replicate 99 0) (fun _ => false)).active = false ∧
    (drawTick stalledSession 0 (List.replicate 99 0) (fun _ => false)).winners = [] ∧
    (drawTick stalledSession 0 (List.replicate 99 0) (fun _ => false)).drawnNumbers.length
      = 1 ∧
    (1 : Nat) < 75 := by
  exact ⟨rfl, rfl, rfl, rfl, by omega⟩

/-- C2 witness: the draw-tick law at the concrete two-player session with one
fresh candidate supplied. -/
theorem c2_draw_tick_witness :
    (((drawTick sampleSession 0 [10] sampleRoll).gameState = GameState.finished) ↔
      ((([10] : List Nat).take 99).map (fun n => genCandidate (0, n))).find?
          (fun d => !(sampleSession.drawnNumbers.contains d)) = none
        ∨ sampleSession.players.filter (fun p =>
            decide (10 ≤ sampleSession.drawnNumbers.length + 1) && !p.hasWon
              && sampleRoll p.userId) ≠ []
        ∨ 75 ≤ sampleSession.drawnNumbers.length + 1) ∧
    (((drawTick sampleSession 0 [10] sampleRoll).active = false) ↔
      ((([10] : List Nat).take 99).map (fun n => genCandidate (0, n))).find?
          (fun d => !(sampleSession.drawnNumbers.contains d)) = none
        ∨ sampleSession.players.filter (fun p =>
            decide (10 ≤ sampleSession.drawnNumbers.length + 1) && !p.hasWon
              && sampleRoll p.userId) ≠ []
        ∨ 75 ≤ sampleSession.drawnNumbers.length + 1) ∧
    (((([10] : List Nat).take 99).map (fun n => genCandidate (0, n))).find?
        (fun d => !(sampleSession.drawnNumbers.contains d)) = none →
      (drawTick sampleSession 0 [10] sampleRoll).winners = []) ∧
    (∀ d, ((([10] : List Nat).take 99).map (fun n => genCandidate (0, n))).find?
        (fun d => !(sampleSession.drawnNumbers.contains d)) = some d →
      75 ≤ sampleSession.drawnNumbers.length + 1 →
      (drawTick sampleSession 0 [10] sampleRoll).winners = []) ∧
    (∀ d, ((([10] : List Nat).take 99).map (fun n => genCandidate (0, n))).find?
        (fun d => !(sampleSession.drawnNumbers.contains d)) = some d →
      ¬ 75 ≤ sampleSession.drawnNumbers.length + 1 →
      sampleSession.players.filter (fun p =>
        decide (10 ≤ sampleSession.drawnNumbers.length + 1) && !p.hasWon
          && sampleRoll p.userId) ≠ [] →
      (drawTick sampleSession 0 [10] sampleRoll).winners ≠ []) ∧
    ((∀ d : Draw, validDraw d → d ∈ sampleSession.drawnNumbers) →
      ((([10] : List Nat).take 99).map (fun n => genCandidate (0, n))).find?
        (fun d => !(sampleSession.drawnNumbers.contains d)) = none) :=
  c2_draw_tick sampleSession 0 [10] sampleRoll rfl rfl

/-- The 75 valid draw tokens, by column. -/
def allTokens : List Draw :=
  columnsSpec.flatMap (fun c => (generateRange c.2.1 c.2.2).map (fun n => (c.1, n)))

theorem allTokens_length : allTokens.length = 75 := by decide

theorem allTokens_nodup : allTokens.Nodup := by decide

theorem mem_allTokens (d : Draw) : d ∈ allTokens ↔ validDraw d := by
  rcases d with ⟨L, n⟩
  cases L <;>
    simp [allTokens, columnsSpec, List.mem_flatMap, mem_generateRange, validDraw,
      colMin, colMax]

theorem usedInColumn_sum (used : List Draw) :
    usedInColumn used Letter.B + usedInColumn used Letter.I + usedInColumn used Letter.N
      + usedInColumn used Letter.G + usedInColumn used Letter.O = used.length := by
  induction used with
  | nil => rfl
  | cons d t ih =>
    rcases d with ⟨L, n⟩
    unfold usedInColumn at ih ⊢
    cases L <;> simp [List.filter_cons] <;> omega

theorem availableColumns_ne_nil (used : List Draw) (h : used.length < 75) :
    availableColumns used ≠ [] := by
  intro hx
  have h5 := List.filter_eq_nil_iff.mp hx
  have hB := h5 (Letter.B, 1, 15) (by simp [columnsSpec])
  have hI := h5 (Letter.I, 16, 30) (by simp [columnsSpec])
  have hN := h5 (Letter.N, 31, 45) (by simp [columnsSpec])
  have hG := h5 (Letter.G, 46, 60) (by simp [columnsSpec])
  have hO := h5 (Letter.O, 61, 75) (by simp [columnsSpec])
  simp only [decide_eq_true_eq, not_lt] at hB hI hN hG hO
  have hsum := usedInColumn_sum used
  omega

/-- The 15 tokens of one column. -/
def columnTokens (L : Letter) (lo hi : Nat) : List Draw :=
  (generateRange lo hi).map (fun n => (L, n))

theorem columnTokens_nodup (L : Letter) (lo hi : Nat) : (columnTokens L lo hi).Nodup := by
  refine List.Nodup.map ?_ (generateRange_nodup lo hi)
  intro a b h
  have := congrArg Prod.snd h
  simpa using this

theorem availableNumbers_ne_nil (used : List Draw) (L : Letter) (lo hi : Nat)
    (hmem : (L, lo, hi) ∈ availableColumns used) :
    availableNumbers used L lo hi ≠ [] := by
  have hfil := List.mem_filter.mp hmem
  have hcol : usedInColumn used L < 15 := by
    have := hfil.2
    simpa using this
  have hspec : (L, lo, hi) ∈ columnsSpec := hfil.1
  have hlen15 : (generateRange lo hi).length = 15 := by
    rw [generateRange_length]
    simp only [columnsSpec, List.mem_cons, List.not_mem_nil, or_false,
      Prod.mk.injEq] at hspec
    rcases hspec with ⟨-, h1, h2⟩ | ⟨-, h1, h2⟩ | ⟨-, h1, h2⟩ | ⟨-, h1, h2⟩ | ⟨-, h1, h2⟩ <;>
      subst h1 <;> subst h2 <;> rfl
  intro hx
  have hallused : ∀ n ∈ generateRange lo hi, (L, n) ∈ used := by
    intro n hn
    have := List.filter_eq_nil_iff.mp hx n hn
    simpa using this
  have hsub : columnTokens L lo hi ⊆ used.filter (fun d => d.1 = L) := by
    intro d hd
    rcases List.mem_map.mp hd with ⟨n, hn, rfl⟩
    refine List.mem_filter.mpr ⟨hallused n hn, by simp⟩
  have hsp := List.subperm_of_subset (columnTokens_nodup L lo hi) hsub
  have hle := hsp.length_le
  rw [show (columnTokens L lo hi).length = 15 from by
    rw [columnTokens, List.length_map, hlen15]] at hle
  exact absurd hle (by simpa [usedInColumn] using hcol)

theorem filter_valid_sub_columnTokens (used : List Draw) (L : Letter)
    (hv : ∀ d ∈ used, validDraw d) :
    used.filter (fun d => d.1 = L) ⊆ columnTokens L (colMin L) (colMax L) := by
  intro d hd
  have hmem := List.mem_filter.mp hd
  have hL : d.1 = L := by simpa using hmem.2
  have hval := hv d hmem.1
  rcases d with ⟨L2, n⟩
  dsimp only at hL
  subst hL
  exact List.mem_map.mpr ⟨n, mem_generateRange.mpr ⟨hval.1, hval.2⟩, rfl⟩

theorem availableColumns_nil_iff (used : List Draw)
    (hv : ∀ d ∈ used, validDraw d) (hnd : used.Nodup) :
    availableColumns used = [] ↔ ∀ d, validDraw d → d ∈ used := by
  constructor
  · intro hx d hd
    have h5 := List.filter_eq_nil_iff.mp hx
    have hall : ∀ L : Letter, 15 ≤ usedInColumn used L := by
      intro L
      have hm : (L, colMin L, colMax L) ∈ columnsSpec := by
        cases L <;> simp [columnsSpec, colMin, colMax]
      have := h5 (L, colMin L, colMax L) hm
      simpa using this
    have hsp : List.Subperm (used.filter (fun d2 => d2.1 = d.1))
        (columnTokens d.1 (colMin d.1) (colMax d.1)) :=
      List.subperm_of_subset (hnd.filter _) (filter_valid_sub_columnTokens used d.1 hv)
    have hperm : (used.filter (fun d2 => d2.1 = d.1)).Perm
        (columnTokens d.1 (colMin d.1) (colMax d.1)) := by
      refine hsp.perm_of_length_le ?_
      have h15 : (columnTokens d.1 (colMin d.1) (colMax d.1)).length = 15 := by
        rw [columnTokens, List.length_map, generateRange_length]
        cases hd2 : d.1 <;> simp [colMin, colMax]
      rw [h15]
      exact hall d.1
    have hdcol : d ∈ columnTokens d.1 (colMin d.1) (colMax d.1) := by
      rcases d with ⟨L, n⟩
      exact List.mem_map.mpr ⟨n, mem_generateRange.mpr ⟨hd.1, hd.2⟩, rfl⟩
    have := hperm.mem_iff.mpr hdcol
    exact (List.mem_filter.mp this).1
  · intro hall
    unfold availableColumns
    rw [List.filter_eq_nil_iff]
    rintro ⟨L, lo, hi⟩ hmem
    simp only [decide_eq_true_eq, not_lt]
    have hsub : columnTokens L lo hi ⊆ used.filter (fun d => d.1 = L) := by
      intro d hd
      rcases List.mem_map.mp hd with ⟨n, hn, rfl⟩
      have hval : validDraw (L, n) := by
        simp only [columnsSpec, List.mem_cons, List.not_mem_nil, or_false,
          Prod.mk.injEq] at hmem
        rcases hmem with ⟨h0, h1, h2⟩ | ⟨h0, h1, h2⟩ | ⟨h0, h1, h2⟩ | ⟨h0, h1, h2⟩ |
          ⟨h0, h1, h2⟩ <;> subst h0 <;> subst h1 <;> subst h2 <;>
          exact ⟨(mem_generateRange.mp hn).1, (mem_generateRange.mp hn).2⟩
      exact List.mem_filter.mpr ⟨hall _ hval, by simp⟩
    have hsp := List.subperm_of_subset (columnTokens_nodup L lo hi) hsub
    have hle := hsp.length_le
    have h15 : (columnTokens L lo hi).length = 15 := by
      rw [columnTokens, List.length_map, generateRange_length]
      simp only [columnsSpec, List.mem_cons, List.not_mem_nil, or_false,
        Prod.mk.injEq] at hmem
      rcases hmem with ⟨-, h1, h2⟩ | ⟨-, h1, h2⟩ | ⟨-, h1, h2⟩ | ⟨-, h1, h2⟩ |
        ⟨-, h1, h2⟩ <;> subst h1 <;> subst h2 <;> rfl
    rw [h15] at hle
    exact hle

theorem generateRandomDraw_spec (used : List Draw) (c n : Nat)
    (rest : List (Nat × Nat)) (hv : ∀ d ∈ used, validDraw d) (hnd : used.Nodup) :
    ∃ r, generateRandomDraw used ((c, n) :: rest) = some r ∧
      (∀ d, r = some d → d ∉ used ∧ validDraw d) ∧
      (r = none ↔ ∀ d, validDraw d → d ∈ used) := by
  by_cases hA : availableColumns used = []
  · refine ⟨none, ?_, fun d hd => Option.noConfusion hd, ?_⟩
    · show (if (availableColumns used).isEmpty then _ else _) = _
      rw [if_pos (by simp [hA])]
    · simpa using (availableColumns_nil_iff used hv hnd).mp hA
  · have hAe : (availableColumns used).isEmpty = false := by
      rcases hx : availableColumns used with _ | ⟨a, t⟩
      · exact absurd hx hA
      · rfl
    have hlt : c % (availableColumns used).length < (availableColumns used).length := by
      refine Nat.mod_lt _ ?_
      rcases hx : availableColumns used with _ | ⟨a, t⟩
      · exact absurd hx hA
      · simp
    set col := (availableColumns used).getD (c % (availableColumns used).length)
      (Letter.B, 1, 15) with hcol
    have hcolmem : col ∈ availableColumns used := by
      rw [hcol, List.getD_eq_getElem _ _ hlt]
      exact List.getElem_mem hlt
    have hnums : availableNumbers used col.1 col.2.1 col.2.2 ≠ [] := by
      have := availableNumbers_ne_nil used col.1 col.2.1 col.2.2
      rcases hc2 : col with ⟨L2, lo2, hi2⟩
      rw [hc2] at hcolmem
      exact availableNumbers_ne_nil used L2 lo2 hi2 hcolmem
    have hnumsE : (availableNumbers used col.1 col.2.1 col.2.2).isEmpty = false := by
      rcases hx : availableNumbers used col.1 col.2.1 col.2.2 with _ | ⟨a, t⟩
      · exact absurd hx hnums
      · rfl
    have hnlt : n % (availableNumbers used col.1 col.2.1 col.2.2).length
        < (availableNumbers used col.1 col.2.1 col.2.2).length := by
      refine Nat.mod_lt _ ?_
      rcases hx : availableNumbers used col.1 col.2.1 col.2.2 with _ | ⟨a, t⟩
      · exact absurd hx hnums
      · simp
    have hval : (availableNumbers used col.1 col.2.1 col.2.2).getD
        (n % (availableNumbers used col.1 col.2.1 col.2.2).length) 0
        ∈ availableNumbers used col.1 col.2.1 col.2.2 := by
      rw [List.getD_eq_getElem _ _ hnlt]
      exact List.getElem_mem hnlt
    have hmem2 := List.mem_filter.mp hval
    have hnotused : (col.1, (availableNumbers used col.1 col.2.1 col.2.2).getD
        (n % (availableNumbers used col.1 col.2.1 col.2.2).length) 0) ∉ used := by
      have h2 := hmem2.2
      simp only [Bool.not_eq_true'] at h2
      intro hx
      have h3 : used.contains (col.1, (availableNumbers used col.1 col.2.1 col.2.2).getD
          (n % (availableNumbers used col.1 col.2.1 col.2.2).length) 0) = true :=
        List.elem_iff.mpr hx
      rw [h2] at h3
      exact Bool.noConfusion h3
    have hvalid2 : validDraw (col.1, (availableNumbers used col.1 col.2.1 col.2.2).getD
        (n % (availableNumbers used col.1 col.2.1 col.2.2).length) 0) := by
      have hrange := hmem2.1
      have hspec : col ∈ columnsSpec := (List.mem_filter.mp hcolmem).1
      have hr := mem_generateRange.mp hrange
      rcases hc2 : col with ⟨L2, lo2, hi2⟩
      rw [hc2] at hspec
      rw [hc2] at hr
      simp only [columnsSpec, List.mem_cons, List.not_mem_nil, or_false,
        Prod.mk.injEq] at hspec
      rcases hspec with ⟨h0, h1, h2⟩ | ⟨h0, h1, h2⟩ | ⟨h0, h1, h2⟩ | ⟨h0, h1, h2⟩ |
        ⟨h0, h1, h2⟩ <;> subst h0 <;> subst h1 <;> subst h2 <;>
        exact ⟨hr.1, hr.2⟩
    refine ⟨some (col.1, (availableNumbers used col.1 col.2.1 col.2.2).getD
      (n % (availableNumbers used col.1 col.2.1 col.2.2).length) 0), ?_, ?_, ?_⟩
    · show (if (availableColumns used).isEmpty then _ else _) = _
      rw [hAe]
      show (if (availableNumbers used col.1 col.2.1 col.2.2).isEmpty then _ else _) = _
      rw [hnumsE]
      rfl
    · intro d hd
      rw [Option.some_inj.mp hd] at hnotused hvalid2
      exact ⟨hnotused, hvalid2⟩
    · constructor
      · intro hx
        exact Option.noConfusion hx
      · intro hall
        exact absurd ((availableColumns_nil_iff used hv hnd).mpr hall) hA

theorem subset_all_of_big (l : List Draw) (hnd : l.Nodup)
    (hval : ∀ d ∈ l, validDraw d) (hlen : 75 ≤ l.length) :
    ∀ d, validDraw d → d ∈ l := by
  have hsub : l ⊆ allTokens := fun x hx => (mem_allTokens x).mpr (hval x hx)
  have hsp := List.subperm_of_subset hnd hsub
  have hperm := hsp.perm_of_length_le (by rw [allTokens_length]; exact hlen)
  intro d hd
  exact hperm.mem_iff.mpr ((mem_allTokens d).mpr hd)

theorem all_used_length (used : List Draw)
    (hall : ∀ d, validDraw d → d ∈ used) : 75 ≤ used.length := by
  have hsub : allTokens ⊆ used := fun x hx => hall x ((mem_allTokens x).mp hx)
  have hle := (List.subperm_of_subset allTokens_nodup hsub).length_le
  rw [allTokens_length] at hle
  exact hle

theorem drawSequenceGo_spec (f : Nat → Nat × Nat) :
    ∀ (fuel : Nat) (draws : List Draw), (∀ d ∈ draws, validDraw d) → draws.Nodup →
      draws.length + fuel = 75 →
      (drawSequenceGo f fuel draws).length = 75 ∧ (drawSequenceGo f fuel draws).Nodup ∧
        ∀ d ∈ drawSequenceGo f fuel draws, validDraw d
  | 0, draws, hv, hnd, hlen => by
    unfold drawSequenceGo
    exact ⟨by omega, hnd, hv⟩
  | fuel + 1, draws, hv, hnd, hlen => by
    have hlt : draws.length < 75 := by omega
    unfold drawSequenceGo
    rw [if_pos hlt]
    obtain ⟨r, hr, hprops, hiff⟩ :=
      generateRandomDraw_spec draws (f draws.length).1 (f draws.length).2 [] hv hnd
    rw [Prod.mk.eta] at hr
    rw [hr]
    rcases r with _ | d
    · exfalso
      have hall := hiff.mp rfl
      have := all_used_length draws hall
      omega
    · obtain ⟨hnotin, hvalid⟩ := hprops d rfl
      have hvalid2 : ∀ x ∈ draws ++ [d], validDraw x := by
        intro x hx
        rcases List.mem_append.mp hx with h | h
        · exact hv x h
        · rw [List.mem_singleton.mp h]
          exact hvalid
      have hnd2 : (draws ++ [d]).Nodup := by
        rw [List.nodup_append]
        refine ⟨hnd, List.nodup_singleton d, ?_⟩
        intro x hx hx2
        rw [List.mem_singleton.mp hx2] at hx
        exact hnotin hx
      have hlen2 : (draws ++ [d]).length + fuel = 75 := by
        simp only [List.length_append, List.length_singleton]
        omega
      exact drawSequenceGo_spec f fuel (draws ++ [d]) hvalid2 hnd2 hlen2

/-- C4: generateRandomDraw never returns an already-used token, and it returns
the null sentinel exactly when all 75 tokens are used (for a duplicate-free
list of valid previously drawn tokens); consequently
generateCompleteDrawSequence returns 75 pairwise distinct tokens covering each
of the 75 possible tokens exactly once. -/
theorem c4_draw_uniqueness (used : List Draw) (c n : Nat) (rest : List (Nat × Nat))
    (f : Nat → Nat × Nat) (hv : ∀ d ∈ used, validDraw d) (hnd : used.Nodup) :
    (∃ r, generateRandomDraw used ((c, n) :: rest) = some r ∧
      (∀ d, r = some d → d ∉ used ∧ validDraw d) ∧
      (r = none ↔ ∀ d, validDraw d → d ∈ used)) ∧
    ((generateCompleteDrawSequence f).length = 75 ∧
      (generateCompleteDrawSequence f).Nodup ∧
      (∀ d : Draw, d ∈ generateCompleteDrawSequence f ↔ validDraw d)) := by
  refine ⟨generateRandomDraw_spec used c n rest hv hnd, ?_⟩
  obtain ⟨hlen, hnd2, hval⟩ := drawSequenceGo_spec f 75 [] (by simp) (by simp) (by simp)
  refine ⟨hlen, hnd2, fun d => ⟨hval d, ?_⟩⟩
  intro hd
  exact subset_all_of_big _ hnd2 hval (by omega) d hd

/-- C4 witness: the draw generator applied after one drawn token, and the
complete sequence for one concrete randomness stream. -/
theorem c4_draw_uniqueness_witness :
    (∃ r, generateRandomDraw [(Letter.B, 3)] ((0, 0) :: []) = some r ∧
      (∀ d, r = some d → d ∉ [(Letter.B, 3)] ∧ validDraw d) ∧
      (r = none ↔ ∀ d, validDraw d → d ∈ [(Letter.B, 3)])) ∧
    ((generateCompleteDrawSequence (fun _ => (0, 0))).length = 75 ∧
      (generateCompleteDrawSequence (fun _ => (0, 0))).Nodup ∧
      (∀ d : Draw, d ∈ generateCompleteDrawSequence (fun _ => (0, 0)) ↔ validDraw d)) :=
  c4_draw_uniqueness [(Letter.B, 3)] 0 0 [] (fun _ => (0, 0)) (by decide) (by decide)

end Bingo
